import Mathlib

/-!
# Classic99 v4: the TI-99/4 machine builder and its 2.2 variant

A shallow embedding of `Systems/TexasInstruments/TI994.cpp` and
`Systems/TexasInstruments/TI994A_22.cpp`: the four dispatch tables, the
peripheral pointers, the claim loops of `TI994::initSystem`, the teardown of
`TI994::deInitSystem`, the scheduler step `TI994::runSystem`, and the variant
hook `TI994A22::initSpecificSystem`.

Pointers are `Option Nat` (`none` is `nullptr`, `some h` is the handle of an
object); `new` hands out the next unused handle and logs the class of the
object, `delete` logs the handle as freed.  The internal state of the
peripherals is an abstract type `σ` acted on by the operations of
`Peripherals σ`.
-/

namespace Classic99

/-- The concrete peripheral classes constructed by the two source files. -/
inductive DeviceClass
  | Classic99TV
  | TI994GROM
  | TI994ROM
  | TI994Scratchpad
  | TMS9918
  | KB994
  | TMS9900
  | TI994A22GROM
  | TI994AROM
  | TMS9918A
  | KB994A
  deriving DecidableEq, Repr

/-- Modelled from the spec: the declaration of `PeripheralMap` is outside the two
source files.  A dispatch entry is a non-owning device reference `who`
(`none` means unmapped) and the device-local key `addr`. -/
structure PeripheralMap where
  who : Option Nat
  addr : Nat
  deriving DecidableEq, Repr

/-- Modelled from the spec: a freshly allocated dispatch entry is unmapped. -/
instance : Inhabited PeripheralMap := ⟨⟨none, 0⟩⟩

/-- The two mode flags of `Classic99GROM`; their values are declared outside the
two source files, so they are parameters of the development. -/
structure Classic99GROM where
  GROM_MODE_ADDRESS : Nat
  GROM_MODE_WRITE : Nat
  deriving Repr

/-- The behaviour of the peripherals, which is outside the two source files:
the constructor of an object of a class at a handle, `init`, `operate` with
a timestamp, the interrupt-active signal, and the destructor, all acting on
the peripherals' own state `σ`. -/
structure Peripherals (σ : Type) where
  construct : DeviceClass → Nat → σ → σ
  init : Nat → σ → σ
  operate : Nat → Int → σ → σ
  isIntActive : Nat → σ → Bool
  destroy : Nat → σ → σ

/-- Logical keys of the interesting-data registry used by `initSystem`. -/
inductive IndirectKey
  | INDIRECT_MAIN_CPU_PC
  | INDIRECT_MAIN_CPU_INTERRUPTS_ENABLED
  deriving DecidableEq, Repr

/-- Data identifiers the logical keys are pointed at by `initSystem`. -/
inductive DataKey
  | DATA_TMS9900_PC
  | DATA_TMS9900_INTERRUPTS_ENABLED
  deriving DecidableEq, Repr

/-- The members of a `TI994` (inherited from `Classic99System`) that the two
source files read or write.  `objects` is the log of every object allocated
so far (the handle of an object is its position), `freed` the handles that
have been deleted.  Modelled from the spec: `currentTimestamp` and the
aggregated interrupt line are declared outside the two source files; the
timestamp is the spec's monotonic integer and the line is one flag. -/
structure TI994 (σ : Type) where
  memorySpaceRead : Option (List PeripheralMap)
  memorySpaceWrite : Option (List PeripheralMap)
  ioSpaceRead : Option (List PeripheralMap)
  ioSpaceWrite : Option (List PeripheralMap)
  memorySize : Nat
  ioSize : Nat
  theTV : Option Nat
  pGrom : Option Nat
  pRom : Option Nat
  pScratch : Option Nat
  pVDP : Option Nat
  pKey : Option Nat
  pCPU : Option Nat
  currentTimestamp : Int
  interruptLine : Bool
  interesting : List (IndirectKey × DataKey)
  objects : List DeviceClass
  freed : List Nat
  world : σ

/-- A freshly constructed machine: no tables, no devices, time zero. -/
def TI994.fresh {σ : Type} (w : σ) : TI994 σ :=
  { memorySpaceRead := none, memorySpaceWrite := none, ioSpaceRead := none,
    ioSpaceWrite := none, memorySize := 0, ioSize := 0, theTV := none, pGrom := none,
    pRom := none, pScratch := none, pVDP := none, pKey := none, pCPU := none,
    currentTimestamp := 0, interruptLine := false, interesting := [], objects := [],
    freed := [], world := w }

/-- Resolution of an address in one dispatch table: the entry, when the table is
allocated and the address is inside it. -/
def resolve (tbl : Option (List PeripheralMap)) (a : Nat) : Option PeripheralMap :=
  tbl.bind (fun t => t[a]?)

/-- The class of the object a pointer refers to, from the allocation log. -/
def classOf {σ : Type} (s : TI994 σ) (p : Option Nat) : Option DeviceClass :=
  p.bind (fun h => s.objects[h]?)

/-- A pointer is live when it refers to an allocated object that has not been
deleted. -/
def live {σ : Type} (s : TI994 σ) (p : Option Nat) : Bool :=
  match p with
  | some h => decide (h < s.objects.length) && !(s.freed.contains h)
  | none => false

/-- `new C(this)`: allocate the next handle, log its class, run the constructor. -/
def newObject {σ : Type} (P : Peripherals σ) (cls : DeviceClass) (s : TI994 σ) :
    Nat × TI994 σ :=
  (s.objects.length,
    { s with objects := s.objects ++ [cls],
             world := P.construct cls s.objects.length s.world })

/-- `p->init(0)` (and `theTV->init()`): run the device's init on the world. -/
def devInit {σ : Type} (P : Peripherals σ) (p : Option Nat) (s : TI994 σ) : TI994 σ :=
  match p with
  | some h => { s with world := P.init h s.world }
  | none => s

/-- `delete p`: a null pointer is ignored, otherwise the destructor runs and the
handle is logged as freed.  The pointer member itself is not changed.  This
is exact for a null pointer and for a pointer to a live object; deleting an
object a second time has no defined result in the source and is not
modelled. -/
def deleteObject {σ : Type} (P : Peripherals σ) (p : Option Nat) (s : TI994 σ) : TI994 σ :=
  match p with
  | some h => { s with freed := h :: s.freed, world := P.destroy h s.world }
  | none => s

/-- Modelled from the spec: `setInterestingData` is outside the two source files;
it associates a logical key with a data identifier, replacing an earlier
association of the same key. -/
def setInterestingData {σ : Type} (k : IndirectKey) (d : DataKey) (s : TI994 σ) : TI994 σ :=
  { s with interesting := (k, d) :: s.interesting.filter (fun p => p.1 ≠ k) }

/-- Modelled from the spec: `claimRead` is outside the two source files.
`claim(space, address, device, local_key)` binds one address unit of Main-Read
to a device and a local key, the last claim winning; an address outside the
space size is rejected and changes nothing. -/
def claimRead {σ : Type} (sysAdr : Nat) (periph : Option Nat) (periphAdr : Nat)
    (s : TI994 σ) : TI994 σ :=
  if sysAdr < s.memorySize then
    { s with memorySpaceRead := s.memorySpaceRead.map (fun t => t.set sysAdr ⟨periph, periphAdr⟩) }
  else s

/-- Modelled from the spec: `claimWrite` is outside the two source files; as
`claimRead`, on the Main-Write table. -/
def claimWrite {σ : Type} (sysAdr : Nat) (periph : Option Nat) (periphAdr : Nat)
    (s : TI994 σ) : TI994 σ :=
  if sysAdr < s.memorySize then
    { s with memorySpaceWrite := s.memorySpaceWrite.map (fun t => t.set sysAdr ⟨periph, periphAdr⟩) }
  else s

/-- Modelled from the spec: `claimIORead` is outside the two source files; as
`claimRead`, on the IO-Read table, bounded by the IO space size. -/
def claimIORead {σ : Type} (sysAdr : Nat) (periph : Option Nat) (periphAdr : Nat)
    (s : TI994 σ) : TI994 σ :=
  if sysAdr < s.ioSize then
    { s with ioSpaceRead := s.ioSpaceRead.map (fun t => t.set sysAdr ⟨periph, periphAdr⟩) }
  else s

/-- Modelled from the spec: `claimIOWrite` is outside the two source files; as
`claimRead`, on the IO-Write table, bounded by the IO space size. -/
def claimIOWrite {σ : Type} (sysAdr : Nat) (periph : Option Nat) (periphAdr : Nat)
    (s : TI994 σ) : TI994 σ :=
  if sysAdr < s.ioSize then
    { s with ioSpaceWrite := s.ioSpaceWrite.map (fun t => t.set sysAdr ⟨periph, periphAdr⟩) }
  else s

/-- Modelled from the spec: `requestInt` is outside the two source files; it
asserts the machine's single aggregated interrupt line. -/
def requestInt {σ : Type} (_level : Nat) (s : TI994 σ) : TI994 σ :=
  { s with interruptLine := true }

/-- The C loop `for (int idx = start; idx < stop; idx += step) body(idx)`, started
at `idx`, with a positive step. -/
def forLoop {α : Type} (stop step : Nat) (hstep : 0 < step) (body : Nat → α → α)
    (idx : Nat) (s : α) : α :=
  if idx < stop then forLoop stop step hstep body (idx + step) (body idx s) else s
termination_by stop - idx
decreasing_by omega

namespace TI994

/-- Lines 27-37 of `initSystem`: four tables of unmapped entries are allocated,
64k for memory and 4k for IO.  The four deletes before them, lines 22-25,
are `deleteTables`; they do nothing when the table pointers are null. -/
def allocTables {σ : Type} (s : TI994 σ) : TI994 σ :=
  { s with memorySpaceRead := some (List.replicate (64 * 1024) default),
           memorySpaceWrite := some (List.replicate (64 * 1024) default),
           memorySize := 64 * 1024,
           ioSpaceRead := some (List.replicate (4 * 1024) default),
           ioSpaceWrite := some (List.replicate (4 * 1024) default),
           ioSize := 4 * 1024 }

/-- Lines 39-55 of `initSystem`: the two indirect interesting-data entries, then
the TV, GROM, ROM, scratchpad, VDP and keyboard are constructed and
initialised, in that order. -/
def createPeripherals {σ : Type} (P : Peripherals σ) (s : TI994 σ) : TI994 σ :=
  let s := setInterestingData .INDIRECT_MAIN_CPU_PC .DATA_TMS9900_PC s
  let s := setInterestingData .INDIRECT_MAIN_CPU_INTERRUPTS_ENABLED
    .DATA_TMS9900_INTERRUPTS_ENABLED s
  let r := newObject P .Classic99TV s
  let s := devInit P (some r.1) { r.2 with theTV := some r.1 }
  let r := newObject P .TI994GROM s
  let s := devInit P (some r.1) { r.2 with pGrom := some r.1 }
  let r := newObject P .TI994ROM s
  let s := devInit P (some r.1) { r.2 with pRom := some r.1 }
  let r := newObject P .TI994Scratchpad s
  let s := devInit P (some r.1) { r.2 with pScratch := some r.1 }
  let r := newObject P .TMS9918 s
  let s := devInit P (some r.1) { r.2 with pVDP := some r.1 }
  let r := newObject P .KB994 s
  devInit P (some r.1) { r.2 with pKey := some r.1 }

/-- Lines 59-62: system ROM. -/
def claimSystemROM {σ : Type} (s : TI994 σ) : TI994 σ :=
  forLoop 0x2000 1 (by decide) (fun idx s => claimRead idx s.pRom idx s) 0 s

/-- Lines 64-68: scratchpad RAM. -/
def claimScratchpad {σ : Type} (s : TI994 σ) : TI994 σ :=
  forLoop 0x8400 1 (by decide)
    (fun idx s =>
      let s := claimRead idx s.pScratch (idx &&& 0xff) s
      claimWrite idx s.pScratch (idx &&& 0xff) s)
    0x8000 s

/-- Lines 71-73: VDP read ports. -/
def claimVDPRead {σ : Type} (s : TI994 σ) : TI994 σ :=
  forLoop 0x8c00 2 (by decide)
    (fun idx s => claimRead idx s.pVDP (if idx &&& 2 ≠ 0 then 1 else 0) s) 0x8800 s

/-- Lines 74-76: VDP write ports. -/
def claimVDPWrite {σ : Type} (s : TI994 σ) : TI994 σ :=
  forLoop 0x9000 2 (by decide)
    (fun idx s => claimWrite idx s.pVDP (if idx &&& 2 ≠ 0 then 1 else 0) s) 0x8c00 s

/-- Lines 79-81: GROM read ports. -/
def claimGROMRead {σ : Type} (g : Classic99GROM) (s : TI994 σ) : TI994 σ :=
  forLoop 0x9c00 2 (by decide)
    (fun idx s => claimRead idx s.pGrom (if idx &&& 2 ≠ 0 then g.GROM_MODE_ADDRESS else 0) s)
    0x9800 s

/-- Lines 82-84: GROM write ports. -/
def claimGROMWrite {σ : Type} (g : Classic99GROM) (s : TI994 σ) : TI994 σ :=
  forLoop 0xa000 2 (by decide)
    (fun idx s =>
      claimWrite idx s.pGrom
        (if idx &&& 2 ≠ 0 then g.GROM_MODE_ADDRESS ||| g.GROM_MODE_WRITE
         else g.GROM_MODE_WRITE) s)
    0x9c00 s

/-- Lines 88-90: the inner loop `for (off = 3; off <= 10; ++off)` of one keyboard
block. -/
def claimKeyboardRead {σ : Type} (idx : Nat) (s : TI994 σ) : TI994 σ :=
  forLoop (10 + 1) 1 (by decide) (fun off s => claimIORead (idx + off) s.pKey off s) 3 s

/-- Lines 91-93: the inner loop `for (off = 18; off <= 21; ++off)` of one keyboard
block. -/
def claimKeyboardWrite {σ : Type} (idx : Nat) (s : TI994 σ) : TI994 σ :=
  forLoop (21 + 1) 1 (by decide) (fun off s => claimIOWrite (idx + off) s.pKey off s) 18 s

/-- Lines 87-94: IO ports for the keyboard, one block every 20 units below 0x800. -/
def claimKeyboard {σ : Type} (s : TI994 σ) : TI994 σ :=
  forLoop 0x800 20 (by decide)
    (fun idx s => claimKeyboardWrite idx (claimKeyboardRead idx s)) 0 s

/-- Lines 59-94 of `initSystem`: the seven claim loops in source order. -/
def claimResources {σ : Type} (g : Classic99GROM) (s : TI994 σ) : TI994 σ :=
  claimKeyboard (claimGROMWrite g (claimGROMRead g (claimVDPWrite (claimVDPRead
    (claimScratchpad (claimSystemROM s))))))

/-- Lines 98-100 of `initSystem`: the CPU is built and initialised last. -/
def buildCPU {σ : Type} (P : Peripherals σ) (s : TI994 σ) : TI994 σ :=
  let r := newObject P .TMS9900 s
  devInit P (some r.1) { r.2 with pCPU := some r.1 }

/-- `TI994::initSystem`: tables, peripherals, claims, CPU; returns `true`.  This
is the function from line 27 on, and the whole function when the four table
pointers are null, where lines 22-25 do nothing; `initSystemCall` is the
call with lines 22-25 made explicit. -/
def initSystem {σ : Type} (P : Peripherals σ) (g : Classic99GROM) (s : TI994 σ) :
    Bool × TI994 σ :=
  (true, buildCPU P (claimResources g (createPeripherals P (allocTables s))))

/-- One of the lines 22-25 of `initSystem`: the scalar `delete` of a table
pointer.  On a null pointer it does nothing.  A table is an array allocated
with `new[]` (and released with `delete[]` in `deInitSystem`); the language
defines no result for a scalar `delete` of it, and `arrayDelete` stands for
what the implementation makes of it: `some ()` when the delete returns,
`none` when it does not. -/
def deleteTable (arrayDelete : Option Unit) (p : Option (List PeripheralMap)) : Option Unit :=
  match p with
  | none => some ()
  | some _ => arrayDelete

/-- Lines 22-25 of `initSystem`: the four table pointers are deleted, in source
order; no member is changed. -/
def deleteTables {σ : Type} (arrayDelete : Option Unit) (s : TI994 σ) : Option (TI994 σ) :=
  (deleteTable arrayDelete s.memorySpaceRead).bind (fun _ =>
  (deleteTable arrayDelete s.memorySpaceWrite).bind (fun _ =>
  (deleteTable arrayDelete s.ioSpaceRead).bind (fun _ =>
  (deleteTable arrayDelete s.ioSpaceWrite).bind (fun _ => some s))))

/-- `TI994::deInitSystem`: sizes zeroed, tables released and their pointers
nulled, then the VDP, ROM, GROM and CPU objects deleted; returns `true`. -/
def deInitSystem {σ : Type} (P : Peripherals σ) (s : TI994 σ) : Bool × TI994 σ :=
  let s := { s with ioSize := 0, memorySize := 0 }
  let s := { s with memorySpaceRead := none, memorySpaceWrite := none,
                    ioSpaceRead := none, ioSpaceWrite := none }
  let s := deleteObject P s.pVDP s
  let s := deleteObject P s.pRom s
  let s := deleteObject P s.pGrom s
  let s := deleteObject P s.pCPU s
  (true, s)

/-- `TI994::runSystem`: the timestamp is advanced, the CPU and then the VDP
operate at the new timestamp, and the VDP's interrupt signal is routed to
`requestInt(1)`.  Calling through a pointer that is null or refers to a
deleted object has no defined result (`none`). -/
def runSystem {σ : Type} (P : Peripherals σ) (microSeconds : Int) (s : TI994 σ) :
    Option (Bool × TI994 σ) :=
  let s := { s with currentTimestamp := s.currentTimestamp + microSeconds }
  match s.pCPU, s.pVDP with
  | some cpu, some vdp =>
    if live s (some cpu) && live s (some vdp) then
      let s := { s with world := P.operate cpu s.currentTimestamp s.world }
      let s := { s with world := P.operate vdp s.currentTimestamp s.world }
      let s := if P.isIntActive vdp s.world then requestInt 1 s else s
      some (true, s)
    else none
  | _, _ => none

end TI994

namespace TI994A22

/-- Lines 25-32 of `initSpecificSystem`: the variant GROM, ROM, VDP and keyboard
are constructed and initialised, in that order. -/
def createVariantPeripherals {σ : Type} (P : Peripherals σ) (s : TI994 σ) : TI994 σ :=
  let r := newObject P .TI994A22GROM s
  let s := devInit P (some r.1) { r.2 with pGrom := some r.1 }
  let r := newObject P .TI994AROM s
  let s := devInit P (some r.1) { r.2 with pRom := some r.1 }
  let r := newObject P .TMS9918A s
  let s := devInit P (some r.1) { r.2 with pVDP := some r.1 }
  let r := newObject P .KB994A s
  devInit P (some r.1) { r.2 with pKey := some r.1 }

/-- Lines 35-37 of `initSpecificSystem`: the alpha lock key output on bit 21 of
every keyboard block. -/
def claimAlphaLock {σ : Type} (s : TI994 σ) : TI994 σ :=
  forLoop 0x800 20 (by decide) (fun idx s => claimIOWrite (idx + 21) s.pKey 21 s) 0 s

/-- `TI994A22::initSpecificSystem`: the variant devices, then the alpha lock
claims; returns `true`. -/
def initSpecificSystem {σ : Type} (P : Peripherals σ) (s : TI994 σ) : Bool × TI994 σ :=
  (true, claimAlphaLock (createVariantPeripherals P s))

/-- `TI994A22` does not define `initSystem`; it inherits `TI994::initSystem`,
which does not call `initSpecificSystem`. -/
def initSystem {σ : Type} (P : Peripherals σ) (g : Classic99GROM) (s : TI994 σ) :
    Bool × TI994 σ :=
  TI994.initSystem P g s

end TI994A22


/-! ## Definitions used to state the results -/

/-- Everything of a machine except the contents of its four tables. -/
def rest {σ : Type} (s : TI994 σ) : TI994 σ :=
  { s with memorySpaceRead := none, memorySpaceWrite := none,
           ioSpaceRead := none, ioSpaceWrite := none }

/-- The four tables of `s` are allocated at 64k and 4k and hold the entries
given by the four functions. -/
structure Tables {σ : Type} (s : TI994 σ) (mr mw ior iow : Nat → PeripheralMap) : Prop where
  memorySize : s.memorySize = 65536
  ioSize : s.ioSize = 4096
  mainRead : ∀ a, resolve s.memorySpaceRead a = if a < 65536 then some (mr a) else none
  mainWrite : ∀ a, resolve s.memorySpaceWrite a = if a < 65536 then some (mw a) else none
  ioRead : ∀ a, resolve s.ioSpaceRead a = if a < 4096 then some (ior a) else none
  ioWrite : ∀ a, resolve s.ioSpaceWrite a = if a < 4096 then some (iow a) else none

/-- The Main-Read table `initSystem` builds, in terms of the device pointers:
ROM, scratchpad, VDP read ports, GROM read ports, the rest unmapped. -/
def mainReadMap (g : Classic99GROM) (pRom pScratch pVDP pGrom : Option Nat) (a : Nat) :
    PeripheralMap :=
  if a < 0x2000 then ⟨pRom, a⟩
  else if 0x8000 ≤ a ∧ a < 0x8400 then ⟨pScratch, a &&& 0xff⟩
  else if 0x8800 ≤ a ∧ a < 0x8c00 ∧ a % 2 = 0 then ⟨pVDP, if a &&& 2 ≠ 0 then 1 else 0⟩
  else if 0x9800 ≤ a ∧ a < 0x9c00 ∧ a % 2 = 0 then
    ⟨pGrom, if a &&& 2 ≠ 0 then g.GROM_MODE_ADDRESS else 0⟩
  else default

/-- The Main-Write table `initSystem` builds: scratchpad, VDP write ports, GROM
write ports, the rest unmapped. -/
def mainWriteMap (g : Classic99GROM) (pScratch pVDP pGrom : Option Nat) (a : Nat) :
    PeripheralMap :=
  if 0x8000 ≤ a ∧ a < 0x8400 then ⟨pScratch, a &&& 0xff⟩
  else if 0x8c00 ≤ a ∧ a < 0x9000 ∧ a % 2 = 0 then ⟨pVDP, if a &&& 2 ≠ 0 then 1 else 0⟩
  else if 0x9c00 ≤ a ∧ a < 0xa000 ∧ a % 2 = 0 then
    ⟨pGrom, if a &&& 2 ≠ 0 then g.GROM_MODE_ADDRESS ||| g.GROM_MODE_WRITE
            else g.GROM_MODE_WRITE⟩
  else default

/-- The IO-Read table `initSystem` builds: offsets 3..10 of the 103 keyboard
blocks. -/
def ioReadMap (pKey : Option Nat) (a : Nat) : PeripheralMap :=
  if a < 2060 ∧ 3 ≤ a % 20 ∧ a % 20 ≤ 10 then ⟨pKey, a % 20⟩ else default

/-- The IO-Write table `initSystem` builds: offsets 18..21 of the 103 keyboard
blocks. -/
def ioWriteMap (pKey : Option Nat) (a : Nat) : PeripheralMap :=
  if 18 ≤ a ∧ a < 2062 ∧ (a - 18) % 20 ≤ 3 then ⟨pKey, 18 + (a - 18) % 20⟩ else default

/-- The entry at an address is unmapped: the address is inside the table and no
device is bound there. -/
def unmappedAt (tbl : Option (List PeripheralMap)) (a : Nat) : Prop :=
  (resolve tbl a).map PeripheralMap.who = some none

/-- The entry at an address is mapped: the address is inside the table and some
device is bound there. -/
def mappedAt (tbl : Option (List PeripheralMap)) (a : Nat) : Prop :=
  ((resolve tbl a).bind PeripheralMap.who).isSome = true

/-- The local key of the entry at an address, when the address is inside the
table. -/
def keyAt (tbl : Option (List PeripheralMap)) (a : Nat) : Option Nat :=
  (resolve tbl a).map PeripheralMap.addr

/-- Peripherals without any state of their own, whose VDP always signals an
interrupt; used for the concrete instances. -/
def unitPeripherals : Peripherals Unit :=
  { construct := fun _ _ w => w, init := fun _ w => w, operate := fun _ _ w => w,
    isIntActive := fun _ _ => true, destroy := fun _ w => w }

/-- Sample values of the two GROM mode flags, two distinct single bits; used for
the concrete instances. -/
def sampleGROM : Classic99GROM := { GROM_MODE_ADDRESS := 2, GROM_MODE_WRITE := 1 }

/-- The base machine after `initSystem` on a freshly constructed instance with
the stateless peripherals. -/
def sampleMachine : TI994 Unit := (TI994.initSystem unitPeripherals sampleGROM (TI994.fresh ())).2

/-- The machine can be ticked: its CPU and VDP pointers refer to live objects. -/
def initialised {σ : Type} (s : TI994 σ) : Prop :=
  live s s.pCPU = true ∧ live s s.pVDP = true

/-- A sequence of `runSystem` calls, one per quantum of the list, each on the
machine the previous call returned. -/
def runSystemSeq {σ : Type} (P : Peripherals σ) : List Int → TI994 σ → Option (TI994 σ)
  | [], s => some s
  | q :: qs, s => (TI994.runSystem P q s).bind (fun r => runSystemSeq P qs r.2)

/-- The roles a dispatch entry's device can play in the base machine. -/
inductive Role
  | ROM
  | Scratchpad
  | VDP
  | GROM
  | Keyboard
  deriving DecidableEq, Repr

/-- The role of a device reference in a machine: which of the machine's device
pointers it equals (`none` for a null reference or a foreign one). -/
def roleOf {σ : Type} (s : TI994 σ) (p : Option Nat) : Option Role :=
  if p = none then none
  else if p = s.pRom then some .ROM
  else if p = s.pScratch then some .Scratchpad
  else if p = s.pVDP then some .VDP
  else if p = s.pGrom then some .GROM
  else if p = s.pKey then some .Keyboard
  else none

/-- What is compared between two machines at one dispatch entry: whether it is
mapped, the role of its device, and its local key. -/
def entryView {σ : Type} (s : TI994 σ) (e : PeripheralMap) : Bool × Option Role × Nat :=
  (e.who.isSome, roleOf s e.who, e.addr)

/-- The class of the device bound at an address of a table of a machine. -/
def deviceClassAt {σ : Type} (s : TI994 σ) (tbl : Option (List PeripheralMap)) (a : Nat) :
    Option DeviceClass :=
  (resolve tbl a).bind (fun e => classOf s e.who)

/-- Peripherals whose state is the log of the `operate` calls made so far, each
with the handle of the device and the timestamp it was given; used for the
concrete instance of the tick order. -/
def tracePeripherals : Peripherals (List (Nat × Int)) :=
  { construct := fun _ _ w => w, init := fun _ w => w,
    operate := fun h ts w => w ++ [(h, ts)], isIntActive := fun _ _ => false,
    destroy := fun _ w => w }

/-- The base machine after `initSystem` on a freshly constructed instance with
the logging peripherals. -/
def traceMachine : TI994 (List (Nat × Int)) :=
  (TI994.initSystem tracePeripherals sampleGROM (TI994.fresh [])).2

/-- The four address spaces. -/
inductive Space
  | MainRead
  | MainWrite
  | IORead
  | IOWrite
  deriving DecidableEq, Repr

/-- One call of a claim function: the space, the address, the device and the
local key. -/
structure Claim where
  space : Space
  sysAdr : Nat
  periph : Option Nat
  periphAdr : Nat
  deriving DecidableEq, Repr

/-- Making one claim: the call of the claim function of its space. -/
def applyClaim {σ : Type} (c : Claim) (s : TI994 σ) : TI994 σ :=
  match c.space with
  | .MainRead => claimRead c.sysAdr c.periph c.periphAdr s
  | .MainWrite => claimWrite c.sysAdr c.periph c.periphAdr s
  | .IORead => claimIORead c.sysAdr c.periph c.periphAdr s
  | .IOWrite => claimIOWrite c.sysAdr c.periph c.periphAdr s

/-- Making a sequence of claims, first to last. -/
def applyClaims {σ : Type} (L : List Claim) (s : TI994 σ) : TI994 σ :=
  L.foldl (fun t c => applyClaim c t) s

/-- The size a claim in a space is checked against. -/
def spaceSize {σ : Type} (sp : Space) (s : TI994 σ) : Nat :=
  match sp with
  | .MainRead => s.memorySize
  | .MainWrite => s.memorySize
  | .IORead => s.ioSize
  | .IOWrite => s.ioSize

/-- Hoare rule for `forLoop`: an invariant indexed by the loop variable that
every iteration below `stop` carries to the next index holds at exit, at an
index that is not below `stop`. -/
theorem forLoop_rule {α : Type} (stop step : Nat) (hstep : 0 < step) (body : Nat → α → α)
    (Inv : Nat → α → Prop)
    (hbody : ∀ i s, i < stop → Inv i s → Inv (i + step) (body i s)) :
    ∀ (n idx : Nat) (s : α), stop - idx ≤ n → Inv idx s →
      ∃ i, stop ≤ i ∧ Inv i (forLoop stop step hstep body idx s) := by
  intro n
  induction n with
  | zero =>
    intro idx s hn h
    rw [forLoop]
    have hlt : ¬ idx < stop := by omega
    rw [if_neg hlt]
    exact ⟨idx, by omega, h⟩
  | succ n ih =>
    intro idx s hn h
    rw [forLoop]
    by_cases hlt : idx < stop
    · rw [if_pos hlt]
      exact ih (idx + step) (body idx s) (by omega) (hbody idx s hlt h)
    · rw [if_neg hlt]
      exact ⟨idx, by omega, h⟩

theorem resolve_map_set (tbl : Option (List PeripheralMap)) (i a : Nat) (e : PeripheralMap) :
    resolve (tbl.map (fun t => t.set i e)) a =
      if i = a then (resolve tbl a).map (fun _ => e) else resolve tbl a := by
  cases tbl with
  | none => simp [resolve]
  | some t =>
    simp only [resolve, Option.map_some', Option.some_bind, List.getElem?_set]
    by_cases h : i = a
    · subst h
      by_cases hl : i < t.length
      · simp [hl, List.getElem?_eq_getElem hl]
      · simp [hl, List.getElem?_eq_none (Nat.le_of_not_lt hl)]
    · simp [h]

theorem rest_claimRead {σ : Type} (i : Nat) (p : Option Nat) (k : Nat) (s : TI994 σ) :
    rest (claimRead i p k s) = rest s := by
  unfold claimRead rest; split <;> rfl

theorem rest_claimWrite {σ : Type} (i : Nat) (p : Option Nat) (k : Nat) (s : TI994 σ) :
    rest (claimWrite i p k s) = rest s := by
  unfold claimWrite rest; split <;> rfl

theorem rest_claimIORead {σ : Type} (i : Nat) (p : Option Nat) (k : Nat) (s : TI994 σ) :
    rest (claimIORead i p k s) = rest s := by
  unfold claimIORead rest; split <;> rfl

theorem rest_claimIOWrite {σ : Type} (i : Nat) (p : Option Nat) (k : Nat) (s : TI994 σ) :
    rest (claimIOWrite i p k s) = rest s := by
  unfold claimIOWrite rest; split <;> rfl

theorem Tables.congr {σ : Type} {s : TI994 σ} {mr mw ior iow mr2 mw2 ior2 iow2 : Nat → PeripheralMap}
    (h : Tables s mr mw ior iow)
    (h1 : ∀ a, a < 65536 → mr2 a = mr a) (h2 : ∀ a, a < 65536 → mw2 a = mw a)
    (h3 : ∀ a, a < 4096 → ior2 a = ior a) (h4 : ∀ a, a < 4096 → iow2 a = iow a) :
    Tables s mr2 mw2 ior2 iow2 := by
  refine ⟨h.memorySize, h.ioSize, ?_, ?_, ?_, ?_⟩
  · intro a; rw [h.mainRead a]; split
    · rw [h1 a (by assumption)]
    · rfl
  · intro a; rw [h.mainWrite a]; split
    · rw [h2 a (by assumption)]
    · rfl
  · intro a; rw [h.ioRead a]; split
    · rw [h3 a (by assumption)]
    · rfl
  · intro a; rw [h.ioWrite a]; split
    · rw [h4 a (by assumption)]
    · rfl

theorem Tables.claimRead {σ : Type} {s : TI994 σ} {mr mw ior iow : Nat → PeripheralMap}
    (h : Tables s mr mw ior iow) (i : Nat) (p : Option Nat) (k : Nat) (hi : i < 65536) :
    Tables (Classic99.claimRead i p k s) (fun a => if a = i then ⟨p, k⟩ else mr a) mw ior iow := by
  have hm := h.memorySize
  unfold Classic99.claimRead
  rw [if_pos (by omega)]
  refine ⟨h.memorySize, h.ioSize, ?_, h.mainWrite, h.ioRead, h.ioWrite⟩
  intro a
  show resolve (s.memorySpaceRead.map _) a = _
  rw [resolve_map_set, h.mainRead a]
  by_cases ha : i = a
  · subst ha; simp [hi]
  · have ha2 : ¬ a = i := fun e => ha e.symm
    simp [ha, ha2]

theorem Tables.claimWrite {σ : Type} {s : TI994 σ} {mr mw ior iow : Nat → PeripheralMap}
    (h : Tables s mr mw ior iow) (i : Nat) (p : Option Nat) (k : Nat) (hi : i < 65536) :
    Tables (Classic99.claimWrite i p k s) mr (fun a => if a = i then ⟨p, k⟩ else mw a) ior iow := by
  have hm := h.memorySize
  unfold Classic99.claimWrite
  rw [if_pos (by omega)]
  refine ⟨h.memorySize, h.ioSize, h.mainRead, ?_, h.ioRead, h.ioWrite⟩
  intro a
  show resolve (s.memorySpaceWrite.map _) a = _
  rw [resolve_map_set, h.mainWrite a]
  by_cases ha : i = a
  · subst ha; simp [hi]
  · have ha2 : ¬ a = i := fun e => ha e.symm
    simp [ha, ha2]

theorem Tables.claimIORead {σ : Type} {s : TI994 σ} {mr mw ior iow : Nat → PeripheralMap}
    (h : Tables s mr mw ior iow) (i : Nat) (p : Option Nat) (k : Nat) (hi : i < 4096) :
    Tables (Classic99.claimIORead i p k s) mr mw (fun a => if a = i then ⟨p, k⟩ else ior a) iow := by
  have hm := h.ioSize
  unfold Classic99.claimIORead
  rw [if_pos (by omega)]
  refine ⟨h.memorySize, h.ioSize, h.mainRead, h.mainWrite, ?_, h.ioWrite⟩
  intro a
  show resolve (s.ioSpaceRead.map _) a = _
  rw [resolve_map_set, h.ioRead a]
  by_cases ha : i = a
  · subst ha; simp [hi]
  · have ha2 : ¬ a = i := fun e => ha e.symm
    simp [ha, ha2]

theorem Tables.claimIOWrite {σ : Type} {s : TI994 σ} {mr mw ior iow : Nat → PeripheralMap}
    (h : Tables s mr mw ior iow) (i : Nat) (p : Option Nat) (k : Nat) (hi : i < 4096) :
    Tables (Classic99.claimIOWrite i p k s) mr mw ior (fun a => if a = i then ⟨p, k⟩ else iow a) := by
  have hm := h.ioSize
  unfold Classic99.claimIOWrite
  rw [if_pos (by omega)]
  refine ⟨h.memorySize, h.ioSize, h.mainRead, h.mainWrite, h.ioRead, ?_⟩
  intro a
  show resolve (s.ioSpaceWrite.map _) a = _
  rw [resolve_map_set, h.ioWrite a]
  by_cases ha : i = a
  · subst ha; simp [hi]
  · have ha2 : ¬ a = i := fun e => ha e.symm
    simp [ha, ha2]

/-! ## The seven claim loops -/

theorem rest_pRom {σ : Type} {s t : TI994 σ} (h : rest t = rest s) : t.pRom = s.pRom :=
  show (rest t).pRom = (rest s).pRom from congrArg TI994.pRom h

theorem rest_pScratch {σ : Type} {s t : TI994 σ} (h : rest t = rest s) :
    t.pScratch = s.pScratch :=
  show (rest t).pScratch = (rest s).pScratch from congrArg TI994.pScratch h

theorem rest_pVDP {σ : Type} {s t : TI994 σ} (h : rest t = rest s) : t.pVDP = s.pVDP :=
  show (rest t).pVDP = (rest s).pVDP from congrArg TI994.pVDP h

theorem rest_pGrom {σ : Type} {s t : TI994 σ} (h : rest t = rest s) : t.pGrom = s.pGrom :=
  show (rest t).pGrom = (rest s).pGrom from congrArg TI994.pGrom h

theorem rest_pKey {σ : Type} {s t : TI994 σ} (h : rest t = rest s) : t.pKey = s.pKey :=
  show (rest t).pKey = (rest s).pKey from congrArg TI994.pKey h

theorem claimSystemROM_spec {σ : Type} (s : TI994 σ) (mr mw ior iow : Nat → PeripheralMap)
    (h : Tables s mr mw ior iow) :
    rest (TI994.claimSystemROM s) = rest s ∧
    Tables (TI994.claimSystemROM s)
      (fun a => if a < 0x2000 then ⟨s.pRom, a⟩ else mr a) mw ior iow := by
  obtain ⟨i, hi, hle, hr, ht⟩ := forLoop_rule 0x2000 1 (by decide)
    (fun idx s => claimRead idx s.pRom idx s)
    (fun i t => i ≤ 0x2000 ∧ rest t = rest s ∧
      Tables t (fun a => if a < i then ⟨s.pRom, a⟩ else mr a) mw ior iow)
    (by
      rintro i t hi ⟨hle, hr, ht⟩
      refine ⟨by omega, by rw [rest_claimRead]; exact hr, ?_⟩
      refine (ht.claimRead i t.pRom i (by omega)).congr ?_ (fun _ _ => rfl) (fun _ _ => rfl)
        (fun _ _ => rfl)
      intro a _
      rw [rest_pRom hr]
      by_cases h1 : a = i
      · subst h1; simp
      · by_cases h2 : a < i
        · have : a < i + 1 := by omega
          simp [h1, h2, this]
        · have : ¬ a < i + 1 := by omega
          simp [h1, h2, this])
    0x2000 0 s (by omega)
    ⟨by omega, rfl, h.congr (fun _ _ => by simp) (fun _ _ => rfl) (fun _ _ => rfl)
      (fun _ _ => rfl)⟩
  have hi2 : i = 0x2000 := by omega
  subst hi2
  exact ⟨hr, ht⟩

theorem claimScratchpad_spec {σ : Type} (s : TI994 σ) (mr mw ior iow : Nat → PeripheralMap)
    (h : Tables s mr mw ior iow) :
    rest (TI994.claimScratchpad s) = rest s ∧
    Tables (TI994.claimScratchpad s)
      (fun a => if 0x8000 ≤ a ∧ a < 0x8400 then ⟨s.pScratch, a &&& 0xff⟩ else mr a)
      (fun a => if 0x8000 ≤ a ∧ a < 0x8400 then ⟨s.pScratch, a &&& 0xff⟩ else mw a)
      ior iow := by
  obtain ⟨i, hi, hge, hle, hr, ht⟩ := forLoop_rule 0x8400 1 (by decide)
    (fun idx s =>
      claimWrite idx (claimRead idx s.pScratch (idx &&& 0xff) s).pScratch (idx &&& 0xff)
        (claimRead idx s.pScratch (idx &&& 0xff) s))
    (fun i t => 0x8000 ≤ i ∧ i ≤ 0x8400 ∧ rest t = rest s ∧
      Tables t (fun a => if 0x8000 ≤ a ∧ a < i then ⟨s.pScratch, a &&& 0xff⟩ else mr a)
        (fun a => if 0x8000 ≤ a ∧ a < i then ⟨s.pScratch, a &&& 0xff⟩ else mw a) ior iow)
    (by
      rintro i t hi ⟨hge, hle, hr, ht⟩
      have hp : t.pScratch = s.pScratch := rest_pScratch hr
      have hp2 : (claimRead i t.pScratch (i &&& 0xff) t).pScratch = s.pScratch :=
        rest_pScratch ((rest_claimRead _ _ _ _).trans hr)
      refine ⟨by omega, by omega, by rw [rest_claimWrite, rest_claimRead]; exact hr, ?_⟩
      have key : ∀ (m : Nat → PeripheralMap) (a : Nat),
          (if 0x8000 ≤ a ∧ a < i + 1 then (⟨s.pScratch, a &&& 0xff⟩ : PeripheralMap) else m a) =
          if a = i then ⟨s.pScratch, i &&& 0xff⟩
          else if 0x8000 ≤ a ∧ a < i then ⟨s.pScratch, a &&& 0xff⟩ else m a := by
        intro m a
        by_cases h1 : a = i
        · subst h1
          have : 0x8000 ≤ a ∧ a < a + 1 := ⟨hge, by omega⟩
          simp [this]
        · by_cases h2 : 0x8000 ≤ a ∧ a < i
          · have : 0x8000 ≤ a ∧ a < i + 1 := ⟨h2.1, by omega⟩
            simp [h1, h2, this]
          · have : ¬ (0x8000 ≤ a ∧ a < i + 1) := by omega
            simp [h1, h2, this]
      refine (((ht.claimRead i t.pScratch (i &&& 0xff) (by omega)).claimWrite i
        (claimRead i t.pScratch (i &&& 0xff) t).pScratch (i &&& 0xff) (by omega))).congr
        ?_ ?_ (fun _ _ => rfl) (fun _ _ => rfl)
      · intro a _; rw [hp]; exact key mr a
      · intro a _; rw [hp2]; exact key mw a)
    0x400 0x8000 s (by omega)
    ⟨by omega, by omega, rfl,
      h.congr (fun a _ => by
          have : ¬ (0x8000 ≤ a ∧ a < 0x8000) := by omega
          simp [this])
        (fun a _ => by
          have : ¬ (0x8000 ≤ a ∧ a < 0x8000) := by omega
          simp [this]) (fun _ _ => rfl) (fun _ _ => rfl)⟩
  have hi2 : i = 0x8400 := by omega
  subst hi2
  exact ⟨hr, ht⟩

/-- A loop of step 2 from an even start that claims its index in Main-Read. -/
theorem evenReadLoop_spec {σ : Type} (s : TI994 σ) (mr mw ior iow : Nat → PeripheralMap)
    (h : Tables s mr mw ior iow) (start stop : Nat) (hs : start % 2 = 0)
    (he : stop % 2 = 0) (hst : start ≤ stop) (hb : stop ≤ 65536)
    (ptr : TI994 σ → Option Nat) (key : Nat → Nat)
    (hptr : ∀ t, rest t = rest s → ptr t = ptr s) :
    rest (forLoop stop 2 (by decide) (fun idx t => claimRead idx (ptr t) (key idx) t)
      start s) = rest s ∧
    Tables (forLoop stop 2 (by decide) (fun idx t => claimRead idx (ptr t) (key idx) t)
      start s)
      (fun a => if start ≤ a ∧ a < stop ∧ a % 2 = 0 then ⟨ptr s, key a⟩ else mr a)
      mw ior iow := by
  obtain ⟨i, hi, hev, hge, hle, hr, ht⟩ := forLoop_rule stop 2 (by decide)
    (fun idx t => claimRead idx (ptr t) (key idx) t)
    (fun i t => i % 2 = 0 ∧ start ≤ i ∧ i ≤ stop ∧ rest t = rest s ∧
      Tables t (fun a => if start ≤ a ∧ a < i ∧ a % 2 = 0 then ⟨ptr s, key a⟩ else mr a)
        mw ior iow)
    (by
      rintro i t hi ⟨hev, hge, hle, hr, ht⟩
      refine ⟨by omega, by omega, by omega, by rw [rest_claimRead]; exact hr, ?_⟩
      refine (ht.claimRead i (ptr t) (key i) (by omega)).congr ?_ (fun _ _ => rfl)
        (fun _ _ => rfl) (fun _ _ => rfl)
      intro a _
      rw [hptr t hr]
      by_cases h1 : a = i
      · subst h1
        have : start ≤ a ∧ a < a + 2 ∧ a % 2 = 0 := ⟨hge, by omega, hev⟩
        simp [this]
      · by_cases h2 : start ≤ a ∧ a < i ∧ a % 2 = 0
        · have : start ≤ a ∧ a < i + 2 ∧ a % 2 = 0 := ⟨h2.1, by omega, h2.2.2⟩
          simp [h1, h2, this]
        · have : ¬ (start ≤ a ∧ a < i + 2 ∧ a % 2 = 0) := by omega
          simp [h1, h2, this])
    (stop - start) start s (by omega)
    ⟨hs, by omega, hst, rfl,
      h.congr (fun a _ => by
          have : ¬ (start ≤ a ∧ a < start ∧ a % 2 = 0) := by omega
          simp [this]) (fun _ _ => rfl) (fun _ _ => rfl) (fun _ _ => rfl)⟩
  have hi2 : i = stop := by omega
  subst hi2
  exact ⟨hr, ht⟩

/-- A loop of step 2 from an even start that claims its index in Main-Write. -/
theorem evenWriteLoop_spec {σ : Type} (s : TI994 σ) (mr mw ior iow : Nat → PeripheralMap)
    (h : Tables s mr mw ior iow) (start stop : Nat) (hs : start % 2 = 0)
    (he : stop % 2 = 0) (hst : start ≤ stop) (hb : stop ≤ 65536)
    (ptr : TI994 σ → Option Nat) (key : Nat → Nat)
    (hptr : ∀ t, rest t = rest s → ptr t = ptr s) :
    rest (forLoop stop 2 (by decide) (fun idx t => claimWrite idx (ptr t) (key idx) t)
      start s) = rest s ∧
    Tables (forLoop stop 2 (by decide) (fun idx t => claimWrite idx (ptr t) (key idx) t)
      start s)
      mr (fun a => if start ≤ a ∧ a < stop ∧ a % 2 = 0 then ⟨ptr s, key a⟩ else mw a)
      ior iow := by
  obtain ⟨i, hi, hev, hge, hle, hr, ht⟩ := forLoop_rule stop 2 (by decide)
    (fun idx t => claimWrite idx (ptr t) (key idx) t)
    (fun i t => i % 2 = 0 ∧ start ≤ i ∧ i ≤ stop ∧ rest t = rest s ∧
      Tables t mr
        (fun a => if start ≤ a ∧ a < i ∧ a % 2 = 0 then ⟨ptr s, key a⟩ else mw a)
        ior iow)
    (by
      rintro i t hi ⟨hev, hge, hle, hr, ht⟩
      refine ⟨by omega, by omega, by omega, by rw [rest_claimWrite]; exact hr, ?_⟩
      refine (ht.claimWrite i (ptr t) (key i) (by omega)).congr (fun _ _ => rfl) ?_
        (fun _ _ => rfl) (fun _ _ => rfl)
      intro a _
      rw [hptr t hr]
      by_cases h1 : a = i
      · subst h1
        have : start ≤ a ∧ a < a + 2 ∧ a % 2 = 0 := ⟨hge, by omega, hev⟩
        simp [this]
      · by_cases h2 : start ≤ a ∧ a < i ∧ a % 2 = 0
        · have : start ≤ a ∧ a < i + 2 ∧ a % 2 = 0 := ⟨h2.1, by omega, h2.2.2⟩
          simp [h1, h2, this]
        · have : ¬ (start ≤ a ∧ a < i + 2 ∧ a % 2 = 0) := by omega
          simp [h1, h2, this])
    (stop - start) start s (by omega)
    ⟨hs, by omega, hst, rfl,
      h.congr (fun _ _ => rfl) (fun a _ => by
          have : ¬ (start ≤ a ∧ a < start ∧ a % 2 = 0) := by omega
          simp [this]) (fun _ _ => rfl) (fun _ _ => rfl)⟩
  have hi2 : i = stop := by omega
  subst hi2
  exact ⟨hr, ht⟩

theorem claimVDPRead_spec {σ : Type} (s : TI994 σ) (mr mw ior iow : Nat → PeripheralMap)
    (h : Tables s mr mw ior iow) :
    rest (TI994.claimVDPRead s) = rest s ∧
    Tables (TI994.claimVDPRead s)
      (fun a => if 0x8800 ≤ a ∧ a < 0x8c00 ∧ a % 2 = 0 then
        ⟨s.pVDP, if a &&& 2 ≠ 0 then 1 else 0⟩ else mr a) mw ior iow :=
  evenReadLoop_spec s mr mw ior iow h 0x8800 0x8c00 (by decide) (by decide) (by decide)
    (by decide) TI994.pVDP (fun a => if a &&& 2 ≠ 0 then 1 else 0) (fun _ hr => rest_pVDP hr)

theorem claimVDPWrite_spec {σ : Type} (s : TI994 σ) (mr mw ior iow : Nat → PeripheralMap)
    (h : Tables s mr mw ior iow) :
    rest (TI994.claimVDPWrite s) = rest s ∧
    Tables (TI994.claimVDPWrite s) mr
      (fun a => if 0x8c00 ≤ a ∧ a < 0x9000 ∧ a % 2 = 0 then
        ⟨s.pVDP, if a &&& 2 ≠ 0 then 1 else 0⟩ else mw a) ior iow :=
  evenWriteLoop_spec s mr mw ior iow h 0x8c00 0x9000 (by decide) (by decide) (by decide)
    (by decide) TI994.pVDP (fun a => if a &&& 2 ≠ 0 then 1 else 0) (fun _ hr => rest_pVDP hr)

theorem claimGROMRead_spec {σ : Type} (g : Classic99GROM) (s : TI994 σ)
    (mr mw ior iow : Nat → PeripheralMap) (h : Tables s mr mw ior iow) :
    rest (TI994.claimGROMRead g s) = rest s ∧
    Tables (TI994.claimGROMRead g s)
      (fun a => if 0x9800 ≤ a ∧ a < 0x9c00 ∧ a % 2 = 0 then
        ⟨s.pGrom, if a &&& 2 ≠ 0 then g.GROM_MODE_ADDRESS else 0⟩ else mr a) mw ior iow :=
  evenReadLoop_spec s mr mw ior iow h 0x9800 0x9c00 (by decide) (by decide) (by decide)
    (by decide) TI994.pGrom (fun a => if a &&& 2 ≠ 0 then g.GROM_MODE_ADDRESS else 0)
    (fun _ hr => rest_pGrom hr)

theorem claimGROMWrite_spec {σ : Type} (g : Classic99GROM) (s : TI994 σ)
    (mr mw ior iow : Nat → PeripheralMap) (h : Tables s mr mw ior iow) :
    rest (TI994.claimGROMWrite g s) = rest s ∧
    Tables (TI994.claimGROMWrite g s) mr
      (fun a => if 0x9c00 ≤ a ∧ a < 0xa000 ∧ a % 2 = 0 then
        ⟨s.pGrom, if a &&& 2 ≠ 0 then g.GROM_MODE_ADDRESS ||| g.GROM_MODE_WRITE
                  else g.GROM_MODE_WRITE⟩ else mw a) ior iow :=
  evenWriteLoop_spec s mr mw ior iow h 0x9c00 0xa000 (by decide) (by decide) (by decide)
    (by decide) TI994.pGrom
    (fun a => if a &&& 2 ≠ 0 then g.GROM_MODE_ADDRESS ||| g.GROM_MODE_WRITE
              else g.GROM_MODE_WRITE)
    (fun _ hr => rest_pGrom hr)

theorem claimKeyboardRead_spec {σ : Type} (idx : Nat) (hidx : idx + 10 < 4096) (s : TI994 σ)
    (mr mw ior iow : Nat → PeripheralMap) (h : Tables s mr mw ior iow) :
    rest (TI994.claimKeyboardRead idx s) = rest s ∧
    Tables (TI994.claimKeyboardRead idx s) mr mw
      (fun a => if idx + 3 ≤ a ∧ a ≤ idx + 10 then ⟨s.pKey, a - idx⟩ else ior a) iow := by
  obtain ⟨i, hi, hge, hle, hr, ht⟩ := forLoop_rule (10 + 1) 1 (by decide)
    (fun off s => claimIORead (idx + off) s.pKey off s)
    (fun off t => 3 ≤ off ∧ off ≤ 11 ∧ rest t = rest s ∧
      Tables t mr mw
        (fun a => if idx + 3 ≤ a ∧ a < idx + off then ⟨s.pKey, a - idx⟩ else ior a) iow)
    (by
      rintro off t hoff ⟨hge, hle, hr, ht⟩
      refine ⟨by omega, by omega, by rw [rest_claimIORead]; exact hr, ?_⟩
      refine (ht.claimIORead (idx + off) t.pKey off (by omega)).congr (fun _ _ => rfl)
        (fun _ _ => rfl) ?_ (fun _ _ => rfl)
      intro a _
      rw [rest_pKey hr]
      by_cases h1 : a = idx + off
      · have hc : idx + 3 ≤ a ∧ a < idx + (off + 1) := by omega
        have ho : a - idx = off := by omega
        rw [if_pos hc, if_pos h1, ho]
      · by_cases h2 : idx + 3 ≤ a ∧ a < idx + off
        · have hc : idx + 3 ≤ a ∧ a < idx + (off + 1) := by omega
          rw [if_pos hc, if_neg h1, if_pos h2]
        · have hc : ¬ (idx + 3 ≤ a ∧ a < idx + (off + 1)) := by omega
          rw [if_neg hc, if_neg h1, if_neg h2])
    8 3 s (by omega)
    ⟨by omega, by omega, rfl,
      h.congr (fun _ _ => rfl) (fun _ _ => rfl) (fun a _ => by
          have : ¬ (idx + 3 ≤ a ∧ a < idx + 3) := by omega
          rw [if_neg this]) (fun _ _ => rfl)⟩
  have hi2 : i = 11 := by omega
  subst hi2
  refine ⟨hr, ht.congr (fun _ _ => rfl) (fun _ _ => rfl) ?_ (fun _ _ => rfl)⟩
  intro a _
  by_cases h2 : idx + 3 ≤ a ∧ a ≤ idx + 10
  · have hc : idx + 3 ≤ a ∧ a < idx + 11 := by omega
    rw [if_pos hc, if_pos h2]
  · have hc : ¬ (idx + 3 ≤ a ∧ a < idx + 11) := by omega
    rw [if_neg hc, if_neg h2]

theorem claimKeyboardWrite_spec {σ : Type} (idx : Nat) (hidx : idx + 21 < 4096) (s : TI994 σ)
    (mr mw ior iow : Nat → PeripheralMap) (h : Tables s mr mw ior iow) :
    rest (TI994.claimKeyboardWrite idx s) = rest s ∧
    Tables (TI994.claimKeyboardWrite idx s) mr mw ior
      (fun a => if idx + 18 ≤ a ∧ a ≤ idx + 21 then ⟨s.pKey, a - idx⟩ else iow a) := by
  obtain ⟨i, hi, hge, hle, hr, ht⟩ := forLoop_rule (21 + 1) 1 (by decide)
    (fun off s => claimIOWrite (idx + off) s.pKey off s)
    (fun off t => 18 ≤ off ∧ off ≤ 22 ∧ rest t = rest s ∧
      Tables t mr mw ior
        (fun a => if idx + 18 ≤ a ∧ a < idx + off then ⟨s.pKey, a - idx⟩ else iow a))
    (by
      rintro off t hoff ⟨hge, hle, hr, ht⟩
      refine ⟨by omega, by omega, by rw [rest_claimIOWrite]; exact hr, ?_⟩
      refine (ht.claimIOWrite (idx + off) t.pKey off (by omega)).congr (fun _ _ => rfl)
        (fun _ _ => rfl) (fun _ _ => rfl) ?_
      intro a _
      rw [rest_pKey hr]
      by_cases h1 : a = idx + off
      · have hc : idx + 18 ≤ a ∧ a < idx + (off + 1) := by omega
        have ho : a - idx = off := by omega
        rw [if_pos hc, if_pos h1, ho]
      · by_cases h2 : idx + 18 ≤ a ∧ a < idx + off
        · have hc : idx + 18 ≤ a ∧ a < idx + (off + 1) := by omega
          rw [if_pos hc, if_neg h1, if_pos h2]
        · have hc : ¬ (idx + 18 ≤ a ∧ a < idx + (off + 1)) := by omega
          rw [if_neg hc, if_neg h1, if_neg h2])
    4 18 s (by omega)
    ⟨by omega, by omega, rfl,
      h.congr (fun _ _ => rfl) (fun _ _ => rfl) (fun _ _ => rfl) (fun a _ => by
          have : ¬ (idx + 18 ≤ a ∧ a < idx + 18) := by omega
          rw [if_neg this])⟩
  have hi2 : i = 22 := by omega
  subst hi2
  refine ⟨hr, ht.congr (fun _ _ => rfl) (fun _ _ => rfl) (fun _ _ => rfl) ?_⟩
  intro a _
  by_cases h2 : idx + 18 ≤ a ∧ a ≤ idx + 21
  · have hc : idx + 18 ≤ a ∧ a < idx + 22 := by omega
    rw [if_pos hc, if_pos h2]
  · have hc : ¬ (idx + 18 ≤ a ∧ a < idx + 22) := by omega
    rw [if_neg hc, if_neg h2]

theorem claimKeyboard_spec {σ : Type} (s : TI994 σ) (mr mw ior iow : Nat → PeripheralMap)
    (h : Tables s mr mw ior iow) :
    rest (TI994.claimKeyboard s) = rest s ∧
    Tables (TI994.claimKeyboard s) mr mw
      (fun a => if a < 2060 ∧ 3 ≤ a % 20 ∧ a % 20 ≤ 10 then ⟨s.pKey, a % 20⟩ else ior a)
      (fun a => if 18 ≤ a ∧ a < 2062 ∧ (a - 18) % 20 ≤ 3 then ⟨s.pKey, 18 + (a - 18) % 20⟩
        else iow a) := by
  obtain ⟨i, hi, hmod, hle, hr, ht⟩ := forLoop_rule 0x800 20 (by decide)
    (fun idx s => TI994.claimKeyboardWrite idx (TI994.claimKeyboardRead idx s))
    (fun i t => i % 20 = 0 ∧ i ≤ 2060 ∧ rest t = rest s ∧
      Tables t mr mw
        (fun a => if a < i ∧ 3 ≤ a % 20 ∧ a % 20 ≤ 10 then ⟨s.pKey, a % 20⟩ else ior a)
        (fun a => if 18 ≤ a ∧ a < i + 2 ∧ (a - 18) % 20 ≤ 3 then
          ⟨s.pKey, 18 + (a - 18) % 20⟩ else iow a))
    (by
      rintro i t hi ⟨hmod, hle, hr, ht⟩
      obtain ⟨hr1, ht1⟩ := claimKeyboardRead_spec i (by omega) t _ _ _ _ ht
      obtain ⟨hr2, ht2⟩ := claimKeyboardWrite_spec i (by omega) _ _ _ _ _ ht1
      refine ⟨by omega, by omega, hr2.trans (hr1.trans hr), ?_⟩
      refine ht2.congr (fun _ _ => rfl) (fun _ _ => rfl) ?_ ?_
      · intro a _
        rw [rest_pKey hr]
        by_cases h1 : i + 3 ≤ a ∧ a ≤ i + 10
        · have hc : a < i + 20 ∧ 3 ≤ a % 20 ∧ a % 20 ≤ 10 := by omega
          have ho : a - i = a % 20 := by omega
          rw [if_pos hc, if_pos h1, ho]
        · by_cases h2 : a < i ∧ 3 ≤ a % 20 ∧ a % 20 ≤ 10
          · have hc : a < i + 20 ∧ 3 ≤ a % 20 ∧ a % 20 ≤ 10 := by omega
            rw [if_pos hc, if_neg h1, if_pos h2]
          · have hc : ¬ (a < i + 20 ∧ 3 ≤ a % 20 ∧ a % 20 ≤ 10) := by omega
            rw [if_neg hc, if_neg h1, if_neg h2]
      · intro a _
        rw [rest_pKey (hr1.trans hr)]
        by_cases h1 : i + 18 ≤ a ∧ a ≤ i + 21
        · have hc : 18 ≤ a ∧ a < i + 20 + 2 ∧ (a - 18) % 20 ≤ 3 := by omega
          have ho : a - i = 18 + (a - 18) % 20 := by omega
          rw [if_pos hc, if_pos h1, ho]
        · by_cases h2 : 18 ≤ a ∧ a < i + 2 ∧ (a - 18) % 20 ≤ 3
          · have hc : 18 ≤ a ∧ a < i + 20 + 2 ∧ (a - 18) % 20 ≤ 3 := by omega
            rw [if_pos hc, if_neg h1, if_pos h2]
          · have hc : ¬ (18 ≤ a ∧ a < i + 20 + 2 ∧ (a - 18) % 20 ≤ 3) := by omega
            rw [if_neg hc, if_neg h1, if_neg h2])
    0x800 0 s (by omega)
    ⟨by omega, by omega, rfl,
      h.congr (fun _ _ => rfl) (fun _ _ => rfl)
        (fun a _ => by
          have : ¬ (a < 0 ∧ 3 ≤ a % 20 ∧ a % 20 ≤ 10) := by omega
          rw [if_neg this])
        (fun a _ => by
          have : ¬ (18 ≤ a ∧ a < 0 + 2 ∧ (a - 18) % 20 ≤ 3) := by omega
          rw [if_neg this])⟩
  have hi2 : i = 2060 := by omega
  subst hi2
  exact ⟨hr, ht⟩

/-! ## The tables built by `initSystem` -/

theorem claimResources_spec {σ : Type} (g : Classic99GROM) (s : TI994 σ)
    (h : Tables s (fun _ => default) (fun _ => default) (fun _ => default)
      (fun _ => default)) :
    rest (TI994.claimResources g s) = rest s ∧
    Tables (TI994.claimResources g s)
      (mainReadMap g s.pRom s.pScratch s.pVDP s.pGrom)
      (mainWriteMap g s.pScratch s.pVDP s.pGrom)
      (ioReadMap s.pKey) (ioWriteMap s.pKey) := by
  obtain ⟨r1, t1⟩ := claimSystemROM_spec s _ _ _ _ h
  obtain ⟨r2, t2⟩ := claimScratchpad_spec _ _ _ _ _ t1
  obtain ⟨r3, t3⟩ := claimVDPRead_spec _ _ _ _ _ t2
  obtain ⟨r4, t4⟩ := claimVDPWrite_spec _ _ _ _ _ t3
  obtain ⟨r5, t5⟩ := claimGROMRead_spec g _ _ _ _ _ t4
  obtain ⟨r6, t6⟩ := claimGROMWrite_spec g _ _ _ _ _ t5
  obtain ⟨r7, t7⟩ := claimKeyboard_spec _ _ _ _ _ t6
  have e2 := r2.trans r1
  have e3 := r3.trans e2
  have e4 := r4.trans e3
  have e5 := r5.trans e4
  have e6 := r6.trans e5
  have e7 := r7.trans e6
  rw [rest_pKey e6, rest_pGrom e5, rest_pGrom e4, rest_pVDP e3, rest_pVDP e2,
    rest_pScratch r1] at t7
  refine ⟨e7, t7.congr ?_ ?_ (fun _ _ => rfl) (fun _ _ => rfl)⟩
  · intro a _
    simp only [mainReadMap]
    split_ifs <;> first | rfl | (exfalso; omega)
  · intro a _
    simp only [mainWriteMap]
    split_ifs <;> first | rfl | (exfalso; omega)

theorem resolve_some (t : List PeripheralMap) (a : Nat) : resolve (some t) a = t[a]? := rfl

theorem resolve_replicate (n a : Nat) :
    resolve (some (List.replicate n default)) a = if a < n then some default else none := by
  rw [resolve_some, List.getElem?_replicate]

theorem allocTables_spec {σ : Type} (s : TI994 σ) :
    Tables (TI994.allocTables s) (fun _ => default) (fun _ => default) (fun _ => default)
      (fun _ => default) := by
  refine ⟨rfl, rfl, ?_, ?_, ?_, ?_⟩
  · intro a; exact resolve_replicate (64 * 1024) a
  · intro a; exact resolve_replicate (64 * 1024) a
  · intro a; exact resolve_replicate (4 * 1024) a
  · intro a; exact resolve_replicate (4 * 1024) a

theorem Tables.of_tables_eq {σ : Type} {s t : TI994 σ} {mr mw ior iow : Nat → PeripheralMap}
    (h : Tables s mr mw ior iow) (h1 : t.memorySpaceRead = s.memorySpaceRead)
    (h2 : t.memorySpaceWrite = s.memorySpaceWrite) (h3 : t.ioSpaceRead = s.ioSpaceRead)
    (h4 : t.ioSpaceWrite = s.ioSpaceWrite) (h5 : t.memorySize = s.memorySize)
    (h6 : t.ioSize = s.ioSize) : Tables t mr mw ior iow :=
  ⟨h5.trans h.memorySize, h6.trans h.ioSize, by rw [h1]; exact h.mainRead,
    by rw [h2]; exact h.mainWrite, by rw [h3]; exact h.ioRead, by rw [h4]; exact h.ioWrite⟩

/-- What `allocTables` keeps of any machine. -/
theorem allocTables_frame {σ : Type} (s : TI994 σ) :
    (TI994.allocTables s).objects = s.objects ∧ (TI994.allocTables s).freed = s.freed ∧
    (TI994.allocTables s).currentTimestamp = s.currentTimestamp ∧
    (TI994.allocTables s).interruptLine = s.interruptLine :=
  ⟨rfl, rfl, rfl, rfl⟩

/-- What `createPeripherals` does to any machine: six fresh handles, six classes
logged, and tables, sizes, freed handles, time and interrupt line kept. -/
theorem createPeripherals_spec {σ : Type} (P : Peripherals σ) (s : TI994 σ) :
    (TI994.createPeripherals P s).theTV = some s.objects.length ∧
    (TI994.createPeripherals P s).pGrom = some (s.objects.length + 1) ∧
    (TI994.createPeripherals P s).pRom = some (s.objects.length + 2) ∧
    (TI994.createPeripherals P s).pScratch = some (s.objects.length + 3) ∧
    (TI994.createPeripherals P s).pVDP = some (s.objects.length + 4) ∧
    (TI994.createPeripherals P s).pKey = some (s.objects.length + 5) ∧
    (TI994.createPeripherals P s).objects = s.objects ++
      [.Classic99TV, .TI994GROM, .TI994ROM, .TI994Scratchpad, .TMS9918, .KB994] ∧
    (TI994.createPeripherals P s).freed = s.freed ∧
    (TI994.createPeripherals P s).currentTimestamp = s.currentTimestamp ∧
    (TI994.createPeripherals P s).interruptLine = s.interruptLine ∧
    (TI994.createPeripherals P s).memorySpaceRead = s.memorySpaceRead ∧
    (TI994.createPeripherals P s).memorySpaceWrite = s.memorySpaceWrite ∧
    (TI994.createPeripherals P s).ioSpaceRead = s.ioSpaceRead ∧
    (TI994.createPeripherals P s).ioSpaceWrite = s.ioSpaceWrite ∧
    (TI994.createPeripherals P s).memorySize = s.memorySize ∧
    (TI994.createPeripherals P s).ioSize = s.ioSize := by
  refine ⟨?_, ?_, ?_, ?_, ?_, ?_, ?_, ?_, ?_, ?_, ?_, ?_, ?_, ?_, ?_, ?_⟩ <;>
    simp [TI994.createPeripherals, newObject, devInit, setInterestingData]

/-- What `buildCPU` does to any machine: one fresh handle for the CPU. -/
theorem buildCPU_spec {σ : Type} (P : Peripherals σ) (s : TI994 σ) :
    (TI994.buildCPU P s).pCPU = some s.objects.length ∧
    (TI994.buildCPU P s).objects = s.objects ++ [.TMS9900] ∧
    (TI994.buildCPU P s).theTV = s.theTV ∧ (TI994.buildCPU P s).pGrom = s.pGrom ∧
    (TI994.buildCPU P s).pRom = s.pRom ∧ (TI994.buildCPU P s).pScratch = s.pScratch ∧
    (TI994.buildCPU P s).pVDP = s.pVDP ∧ (TI994.buildCPU P s).pKey = s.pKey ∧
    (TI994.buildCPU P s).freed = s.freed ∧
    (TI994.buildCPU P s).currentTimestamp = s.currentTimestamp ∧
    (TI994.buildCPU P s).interruptLine = s.interruptLine ∧
    (TI994.buildCPU P s).memorySpaceRead = s.memorySpaceRead ∧
    (TI994.buildCPU P s).memorySpaceWrite = s.memorySpaceWrite ∧
    (TI994.buildCPU P s).ioSpaceRead = s.ioSpaceRead ∧
    (TI994.buildCPU P s).ioSpaceWrite = s.ioSpaceWrite ∧
    (TI994.buildCPU P s).memorySize = s.memorySize ∧
    (TI994.buildCPU P s).ioSize = s.ioSize :=
  ⟨rfl, rfl, rfl, rfl, rfl, rfl, rfl, rfl, rfl, rfl, rfl, rfl, rfl, rfl, rfl, rfl, rfl⟩

/-- The fields other than the tables that two machines with the same `rest`
share. -/
theorem rest_fields {σ : Type} {s t : TI994 σ} (h : rest t = rest s) :
    t.theTV = s.theTV ∧ t.pCPU = s.pCPU ∧ t.objects = s.objects ∧ t.freed = s.freed ∧
    t.currentTimestamp = s.currentTimestamp ∧ t.interruptLine = s.interruptLine ∧
    t.memorySize = s.memorySize ∧ t.ioSize = s.ioSize ∧ t.world = s.world ∧
    t.interesting = s.interesting :=
  ⟨show (rest t).theTV = (rest s).theTV from congrArg TI994.theTV h,
   show (rest t).pCPU = (rest s).pCPU from congrArg TI994.pCPU h,
   show (rest t).objects = (rest s).objects from congrArg TI994.objects h,
   show (rest t).freed = (rest s).freed from congrArg TI994.freed h,
   show (rest t).currentTimestamp = (rest s).currentTimestamp from
     congrArg TI994.currentTimestamp h,
   show (rest t).interruptLine = (rest s).interruptLine from congrArg TI994.interruptLine h,
   show (rest t).memorySize = (rest s).memorySize from congrArg TI994.memorySize h,
   show (rest t).ioSize = (rest s).ioSize from congrArg TI994.ioSize h,
   show (rest t).world = (rest s).world from congrArg TI994.world h,
   show (rest t).interesting = (rest s).interesting from congrArg TI994.interesting h⟩

theorem initSystem_unfold {σ : Type} (P : Peripherals σ) (g : Classic99GROM) (s : TI994 σ) :
    TI994.initSystem P g s = (true, TI994.buildCPU P (TI994.claimResources g
      (TI994.createPeripherals P (TI994.allocTables s)))) := rfl

/-- Everything `initSystem` establishes, from any starting state: the seven
device pointers are the seven fresh handles, the log grows by the seven base
classes, and the four tables hold the closed-form maps. -/
theorem initSystem_spec {σ : Type} (P : Peripherals σ) (g : Classic99GROM) (s : TI994 σ) :
    (TI994.initSystem P g s).1 = true ∧
    (TI994.initSystem P g s).2.theTV = some s.objects.length ∧
    (TI994.initSystem P g s).2.pGrom = some (s.objects.length + 1) ∧
    (TI994.initSystem P g s).2.pRom = some (s.objects.length + 2) ∧
    (TI994.initSystem P g s).2.pScratch = some (s.objects.length + 3) ∧
    (TI994.initSystem P g s).2.pVDP = some (s.objects.length + 4) ∧
    (TI994.initSystem P g s).2.pKey = some (s.objects.length + 5) ∧
    (TI994.initSystem P g s).2.pCPU = some (s.objects.length + 6) ∧
    (TI994.initSystem P g s).2.objects = s.objects ++
      [.Classic99TV, .TI994GROM, .TI994ROM, .TI994Scratchpad, .TMS9918, .KB994, .TMS9900] ∧
    (TI994.initSystem P g s).2.freed = s.freed ∧
    (TI994.initSystem P g s).2.currentTimestamp = s.currentTimestamp ∧
    (TI994.initSystem P g s).2.interruptLine = s.interruptLine ∧
    Tables (TI994.initSystem P g s).2
      (mainReadMap g (some (s.objects.length + 2)) (some (s.objects.length + 3))
        (some (s.objects.length + 4)) (some (s.objects.length + 1)))
      (mainWriteMap g (some (s.objects.length + 3)) (some (s.objects.length + 4))
        (some (s.objects.length + 1)))
      (ioReadMap (some (s.objects.length + 5))) (ioWriteMap (some (s.objects.length + 5))) := by
  rw [initSystem_unfold]
  obtain ⟨aO, aF, aC, aI⟩ := allocTables_frame s
  obtain ⟨cT, cG, cR, cS, cV, cK, cO, cF, cC, cI, c1, c2, c3, c4, c5, c6⟩ :=
    createPeripherals_spec P (TI994.allocTables s)
  rw [aO] at cT cG cR cS cV cK cO
  have hA : Tables (TI994.createPeripherals P (TI994.allocTables s)) (fun _ => default)
      (fun _ => default) (fun _ => default) (fun _ => default) :=
    (allocTables_spec s).of_tables_eq c1 c2 c3 c4 c5 c6
  obtain ⟨hr, ht⟩ := claimResources_spec g _ hA
  rw [cR, cS, cV, cG, cK] at ht
  obtain ⟨rT, _, rO, rF, rC, rI, _, _, _, _⟩ := rest_fields hr
  obtain ⟨bC, bO, bT, bG, bR, bS, bV, bK, bF, bTs, bI, b1, b2, b3, b4, b5, b6⟩ :=
    buildCPU_spec P (TI994.claimResources g (TI994.createPeripherals P (TI994.allocTables s)))
  refine ⟨rfl, ?_, ?_, ?_, ?_, ?_, ?_, ?_, ?_, ?_, ?_, ?_, ?_⟩
  · exact bT.trans (rT.trans cT)
  · exact bG.trans ((rest_pGrom hr).trans cG)
  · exact bR.trans ((rest_pRom hr).trans cR)
  · exact bS.trans ((rest_pScratch hr).trans cS)
  · exact bV.trans ((rest_pVDP hr).trans cV)
  · exact bK.trans ((rest_pKey hr).trans cK)
  · refine bC.trans ?_
    rw [rO, cO]; simp
  · refine bO.trans ?_
    rw [rO, cO]; simp
  · exact bF.trans (rF.trans (cF.trans aF))
  · exact bTs.trans (rC.trans (cC.trans aC))
  · exact bI.trans (rI.trans (cI.trans aI))
  · exact ht.of_tables_eq b1 b2 b3 b4 b5 b6

/-- The tables after `initSystem`, in terms of the pointers of the resulting
machine. -/
theorem initSystem_tables {σ : Type} (P : Peripherals σ) (g : Classic99GROM) (s : TI994 σ) :
    Tables (TI994.initSystem P g s).2
      (mainReadMap g (TI994.initSystem P g s).2.pRom (TI994.initSystem P g s).2.pScratch
        (TI994.initSystem P g s).2.pVDP (TI994.initSystem P g s).2.pGrom)
      (mainWriteMap g (TI994.initSystem P g s).2.pScratch (TI994.initSystem P g s).2.pVDP
        (TI994.initSystem P g s).2.pGrom)
      (ioReadMap (TI994.initSystem P g s).2.pKey)
      (ioWriteMap (TI994.initSystem P g s).2.pKey) := by
  obtain ⟨_, _, hG, hR, hS, hV, hK, _, _, _, _, _, ht⟩ := initSystem_spec P g s
  rw [hG, hR, hS, hV, hK]
  exact ht

/-- The classes of the objects the device pointers refer to after `initSystem`. -/
theorem initSystem_classes {σ : Type} (P : Peripherals σ) (g : Classic99GROM) (s : TI994 σ) :
    classOf (TI994.initSystem P g s).2 (TI994.initSystem P g s).2.pGrom = some .TI994GROM ∧
    classOf (TI994.initSystem P g s).2 (TI994.initSystem P g s).2.pRom = some .TI994ROM ∧
    classOf (TI994.initSystem P g s).2 (TI994.initSystem P g s).2.pScratch
      = some .TI994Scratchpad ∧
    classOf (TI994.initSystem P g s).2 (TI994.initSystem P g s).2.pVDP = some .TMS9918 ∧
    classOf (TI994.initSystem P g s).2 (TI994.initSystem P g s).2.pKey = some .KB994 ∧
    classOf (TI994.initSystem P g s).2 (TI994.initSystem P g s).2.pCPU = some .TMS9900 := by
  obtain ⟨_, _, hG, hR, hS, hV, hK, hC, hO, _⟩ := initSystem_spec P g s
  rw [hG, hR, hS, hV, hK, hC]
  simp only [classOf, hO, Option.some_bind]
  refine ⟨?_, ?_, ?_, ?_, ?_, ?_⟩ <;>
    rw [List.getElem?_append_right (by omega)] <;> simp

theorem unmappedAt_of_resolve {tbl : Option (List PeripheralMap)} {a k : Nat}
    (h : resolve tbl a = some ⟨none, k⟩) : unmappedAt tbl a := by
  simp [unmappedAt, h]

/-! ## C1: system ROM -/

/-- C1: after `TI994::initSystem`, every address `a` below 0x2000 is bound in
Main-Read to the program-ROM device `pRom` (a non-null pointer to the
`TI994ROM` object) with local key `a`, and is unmapped in Main-Write. -/
theorem C1_system_rom {σ : Type} (P : Peripherals σ) (g : Classic99GROM) (s : TI994 σ)
    (a : Nat) (ha : a < 0x2000) :
    (TI994.initSystem P g s).2.pRom ≠ none ∧
    classOf (TI994.initSystem P g s).2 (TI994.initSystem P g s).2.pRom = some .TI994ROM ∧
    resolve (TI994.initSystem P g s).2.memorySpaceRead a
      = some ⟨(TI994.initSystem P g s).2.pRom, a⟩ ∧
    unmappedAt (TI994.initSystem P g s).2.memorySpaceWrite a := by
  have ht := initSystem_tables P g s
  obtain ⟨_, _, _, hR, _⟩ := initSystem_spec P g s
  refine ⟨by rw [hR]; simp, (initSystem_classes P g s).2.1, ?_, ?_⟩
  · rw [ht.mainRead a, if_pos (by omega), mainReadMap, if_pos ha]
  · apply unmappedAt_of_resolve (k := 0)
    rw [ht.mainWrite a, if_pos (by omega), mainWriteMap, if_neg (by omega),
      if_neg (by omega), if_neg (by omega)]
    rfl

/-- Instance of C1 at the last ROM address of the sample machine. -/
theorem C1_system_rom_witness :
    (0x1fff < 0x2000) ∧
    resolve sampleMachine.memorySpaceRead 0x1fff = some ⟨sampleMachine.pRom, 0x1fff⟩ ∧
    unmappedAt sampleMachine.memorySpaceWrite 0x1fff :=
  ⟨by decide,
    (C1_system_rom unitPeripherals sampleGROM (TI994.fresh ()) 0x1fff (by decide)).2.2⟩

/-! ## C2: scratchpad RAM -/

theorem and_255_add_256 (a : Nat) : (a + 0x100) &&& 0xff = a &&& 0xff := by
  have h1 : ∀ x : Nat, x &&& 0xff = x % 256 := fun x => Nat.and_pow_two_sub_one_eq_mod x 8
  rw [h1, h1]
  omega

/-- C2: after `TI994::initSystem`, every address `a` of 0x8000..0x83FF is bound in
both Main-Read and Main-Write to the scratchpad device (a non-null pointer to
the `TI994Scratchpad` object) with local key `a & 0xFF`; so when `a` is at
most 0x82FF the entries at `a` and `a + 0x100` are the same in each table. -/
theorem C2_scratchpad {σ : Type} (P : Peripherals σ) (g : Classic99GROM) (s : TI994 σ)
    (a : Nat) (hlo : 0x8000 ≤ a) (hhi : a < 0x8400) :
    (TI994.initSystem P g s).2.pScratch ≠ none ∧
    classOf (TI994.initSystem P g s).2 (TI994.initSystem P g s).2.pScratch
      = some .TI994Scratchpad ∧
    resolve (TI994.initSystem P g s).2.memorySpaceRead a
      = some ⟨(TI994.initSystem P g s).2.pScratch, a &&& 0xff⟩ ∧
    resolve (TI994.initSystem P g s).2.memorySpaceWrite a
      = some ⟨(TI994.initSystem P g s).2.pScratch, a &&& 0xff⟩ ∧
    (a ≤ 0x82ff →
      resolve (TI994.initSystem P g s).2.memorySpaceRead (a + 0x100)
        = resolve (TI994.initSystem P g s).2.memorySpaceRead a ∧
      resolve (TI994.initSystem P g s).2.memorySpaceWrite (a + 0x100)
        = resolve (TI994.initSystem P g s).2.memorySpaceWrite a) := by
  have ht := initSystem_tables P g s
  obtain ⟨_, _, _, _, hS, _⟩ := initSystem_spec P g s
  have hr : ∀ b, 0x8000 ≤ b → b < 0x8400 →
      resolve (TI994.initSystem P g s).2.memorySpaceRead b
        = some ⟨(TI994.initSystem P g s).2.pScratch, b &&& 0xff⟩ := by
    intro b h1 h2
    rw [ht.mainRead b, if_pos (by omega), mainReadMap, if_neg (by omega),
      if_pos ⟨h1, h2⟩]
  have hw : ∀ b, 0x8000 ≤ b → b < 0x8400 →
      resolve (TI994.initSystem P g s).2.memorySpaceWrite b
        = some ⟨(TI994.initSystem P g s).2.pScratch, b &&& 0xff⟩ := by
    intro b h1 h2
    rw [ht.mainWrite b, if_pos (by omega), mainWriteMap, if_pos ⟨h1, h2⟩]
  refine ⟨by rw [hS]; simp, (initSystem_classes P g s).2.2.1, hr a hlo hhi, hw a hlo hhi, ?_⟩
  intro h3
  rw [hr (a + 0x100) (by omega) (by omega), hw (a + 0x100) (by omega) (by omega),
    hr a hlo hhi, hw a hlo hhi, and_255_add_256]
  exact ⟨rfl, rfl⟩

/-- Instance of C2 on the sample machine: 0x8000 and 0x8100 both carry the
scratchpad with key 0. -/
theorem C2_scratchpad_witness :
    (0x8000 ≤ 0x8000 ∧ 0x8000 < 0x8400) ∧
    resolve sampleMachine.memorySpaceRead 0x8000 = some ⟨sampleMachine.pScratch, 0⟩ ∧
    resolve sampleMachine.memorySpaceRead 0x8100 = some ⟨sampleMachine.pScratch, 0⟩ ∧
    resolve sampleMachine.memorySpaceWrite 0x8100 = some ⟨sampleMachine.pScratch, 0⟩ := by
  have h := C2_scratchpad unitPeripherals sampleGROM (TI994.fresh ()) 0x8000 (by decide)
    (by decide)
  obtain ⟨_, _, h1, h2, h3⟩ := h
  obtain ⟨h4, h5⟩ := h3 (by decide)
  refine ⟨by decide, h1, ?_, ?_⟩
  · exact h4.trans h1
  · exact h5.trans h2

/-! ## C3: keyboard IO-Write blocks -/

/-- C3 fails as stated: on the sample machine, block 103 satisfies
`20 * 103 + 21 < 4096`, yet its IO-Write address `20 * 103 + 18 = 2078` is
unmapped although the keyboard pointer is not null (the loop `idx < 0x800`
stops after block 102). -/
theorem C3_keyboard_write_counterexample :
    20 * 103 + 21 < 4096 ∧ sampleMachine.pKey ≠ none ∧
    unmappedAt sampleMachine.ioSpaceWrite (20 * 103 + 18) := by
  have ht := initSystem_tables unitPeripherals sampleGROM (TI994.fresh ())
  obtain ⟨_, _, _, _, _, _, hK, _⟩ := initSystem_spec unitPeripherals sampleGROM
    (TI994.fresh ())
  refine ⟨by decide, ?_, ?_⟩
  · show (TI994.initSystem unitPeripherals sampleGROM (TI994.fresh ())).2.pKey ≠ none
    rw [hK]; simp
  · apply unmappedAt_of_resolve (k := 0)
    show resolve (TI994.initSystem unitPeripherals sampleGROM
      (TI994.fresh ())).2.ioSpaceWrite (20 * 103 + 18) = _
    rw [ht.ioWrite, if_pos (by decide), ioWriteMap, if_neg (by decide)]
    rfl

/-- C3 (amended): after `TI994::initSystem`, for every block `n` with `n ≤ 102`
(the blocks the loop `idx < 0x800` visits), each of the IO-Write addresses
`20n+18`, `20n+19`, `20n+20` and `20n+21` is bound to the keyboard device (a
non-null pointer to the `KB994` object), with local keys 18, 19, 20 and 21. -/
theorem C3_keyboard_write {σ : Type} (P : Peripherals σ) (g : Classic99GROM) (s : TI994 σ)
    (n : Nat) (hn : n ≤ 102) :
    (TI994.initSystem P g s).2.pKey ≠ none ∧
    classOf (TI994.initSystem P g s).2 (TI994.initSystem P g s).2.pKey = some .KB994 ∧
    resolve (TI994.initSystem P g s).2.ioSpaceWrite (20 * n + 18)
      = some ⟨(TI994.initSystem P g s).2.pKey, 18⟩ ∧
    resolve (TI994.initSystem P g s).2.ioSpaceWrite (20 * n + 19)
      = some ⟨(TI994.initSystem P g s).2.pKey, 19⟩ ∧
    resolve (TI994.initSystem P g s).2.ioSpaceWrite (20 * n + 20)
      = some ⟨(TI994.initSystem P g s).2.pKey, 20⟩ ∧
    resolve (TI994.initSystem P g s).2.ioSpaceWrite (20 * n + 21)
      = some ⟨(TI994.initSystem P g s).2.pKey, 21⟩ := by
  have ht := initSystem_tables P g s
  obtain ⟨_, _, _, _, _, _, hK, _⟩ := initSystem_spec P g s
  have hw : ∀ off, 18 ≤ off → off ≤ 21 →
      resolve (TI994.initSystem P g s).2.ioSpaceWrite (20 * n + off)
        = some ⟨(TI994.initSystem P g s).2.pKey, off⟩ := by
    intro off h1 h2
    have hk : 18 + (20 * n + off - 18) % 20 = off := by omega
    rw [ht.ioWrite, if_pos (by omega), ioWriteMap, if_pos (by omega), hk]
  exact ⟨by rw [hK]; simp, (initSystem_classes P g s).2.2.2.2.1, hw 18 (by omega) (by omega),
    hw 19 (by omega) (by omega), hw 20 (by omega) (by omega), hw 21 (by omega) (by omega)⟩

/-- Instance of the amended C3 at the last block, 102, of the sample machine. -/
theorem C3_keyboard_write_witness :
    (102 ≤ 102) ∧
    resolve sampleMachine.ioSpaceWrite (20 * 102 + 18) = some ⟨sampleMachine.pKey, 18⟩ ∧
    resolve sampleMachine.ioSpaceWrite (20 * 102 + 21) = some ⟨sampleMachine.pKey, 21⟩ :=
  ⟨by decide,
    (C3_keyboard_write unitPeripherals sampleGROM (TI994.fresh ()) 102 (by decide)).2.2.1,
    (C3_keyboard_write unitPeripherals sampleGROM (TI994.fresh ()) 102 (by decide)).2.2.2.2.2⟩

/-! ## C4, C5: the scheduler step -/

theorem live_some_of_initialised {σ : Type} {s : TI994 σ} (h : initialised s) :
    ∃ cpu vdp, s.pCPU = some cpu ∧ s.pVDP = some vdp ∧
      live s (some cpu) = true ∧ live s (some vdp) = true := by
  obtain ⟨h1, h2⟩ := h
  cases hc : s.pCPU with
  | none => rw [hc] at h1; simp [live] at h1
  | some cpu =>
    cases hv : s.pVDP with
    | none => rw [hv] at h2; simp [live] at h2
    | some vdp =>
      rw [hc] at h1; rw [hv] at h2
      exact ⟨cpu, vdp, rfl, rfl, h1, h2⟩

/-- One `runSystem` call on a machine whose CPU and VDP are live, written out. -/
theorem runSystem_eq {σ : Type} (P : Peripherals σ) (q : Int) (s : TI994 σ) (cpu vdp : Nat)
    (hc : s.pCPU = some cpu) (hv : s.pVDP = some vdp)
    (hlc : live s (some cpu) = true) (hlv : live s (some vdp) = true) :
    TI994.runSystem P q s = some (true,
      if P.isIntActive vdp (P.operate vdp (s.currentTimestamp + q)
          (P.operate cpu (s.currentTimestamp + q) s.world)) = true then
        requestInt 1 { s with currentTimestamp := s.currentTimestamp + q,
                              world := P.operate vdp (s.currentTimestamp + q)
                                (P.operate cpu (s.currentTimestamp + q) s.world) }
      else { s with currentTimestamp := s.currentTimestamp + q,
                    world := P.operate vdp (s.currentTimestamp + q)
                      (P.operate cpu (s.currentTimestamp + q) s.world) }) := by
  cases s
  simp only at hc hv
  subst hc hv
  simp only [live] at hlc hlv
  simp only [TI994.runSystem, live, hlc, hlv, Bool.and_self, if_true]

/-- What one `runSystem` call does to a tickable machine: it returns `true`, the
timestamp grows by the quantum, the pointers and the object logs are kept,
and the interrupt line is asserted when the poll is true and kept otherwise. -/
theorem runSystem_effect {σ : Type} (P : Peripherals σ) (q : Int) (s : TI994 σ) (cpu vdp : Nat)
    (hc : s.pCPU = some cpu) (hv : s.pVDP = some vdp)
    (hlc : live s (some cpu) = true) (hlv : live s (some vdp) = true) :
    ∃ t, TI994.runSystem P q s = some (true, t) ∧
      t.currentTimestamp = s.currentTimestamp + q ∧ initialised t ∧
      (s.interruptLine = true → t.interruptLine = true) ∧
      (P.isIntActive vdp (P.operate vdp (s.currentTimestamp + q)
          (P.operate cpu (s.currentTimestamp + q) s.world)) = true →
        t.interruptLine = true) := by
  refine ⟨_, runSystem_eq P q s cpu vdp hc hv hlc hlv, ?_, ?_, ?_, ?_⟩
  · split <;> rfl
  · split
    · exact ⟨by show live s s.pCPU = true; rw [hc]; exact hlc,
        by show live s s.pVDP = true; rw [hv]; exact hlv⟩
    · exact ⟨by show live s s.pCPU = true; rw [hc]; exact hlc,
        by show live s s.pVDP = true; rw [hv]; exact hlv⟩
  · intro hl
    split
    · rfl
    · exact hl
  · intro hp
    rw [if_pos hp]
    rfl

/-- A sequence of ticks on a tickable machine always returns, adds the quanta to
the timestamp, and never releases an asserted interrupt line. -/
theorem runSystemSeq_effect {σ : Type} (P : Peripherals σ) (qs : List Int) :
    ∀ s : TI994 σ, initialised s →
      ∃ t, runSystemSeq P qs s = some t ∧ initialised t ∧
        t.currentTimestamp = s.currentTimestamp + qs.sum ∧
        (s.interruptLine = true → t.interruptLine = true) := by
  induction qs with
  | nil => intro s hs; exact ⟨s, rfl, hs, by simp, id⟩
  | cons q qs ih =>
    intro s hs
    obtain ⟨cpu, vdp, hc, hv, hlc, hlv⟩ := live_some_of_initialised hs
    obtain ⟨t, ht, hts, hti, htl, _⟩ := runSystem_effect P q s cpu vdp hc hv hlc hlv
    obtain ⟨u, hu, hui, huts, hul⟩ := ih t hti
    refine ⟨u, ?_, hui, ?_, fun h => hul (htl h)⟩
    · simp only [runSystemSeq, ht, Option.some_bind]
      exact hu
    · rw [huts, hts, List.sum_cons]; omega

/-- After `initSystem` on a machine whose freed handles are all below the next
handle (in particular on a fresh one) the machine can be ticked. -/
theorem initSystem_initialised {σ : Type} (P : Peripherals σ) (g : Classic99GROM)
    (s : TI994 σ) (hf : ∀ h ∈ s.freed, h < s.objects.length) :
    initialised (TI994.initSystem P g s).2 := by
  obtain ⟨_, _, _, _, _, hV, _, hC, hO, hF, _⟩ := initSystem_spec P g s
  have hn : ∀ k, ¬ (s.objects.length + k) ∈ s.freed := fun k hk => by
    have := hf _ hk
    omega
  constructor
  · rw [hC]; simp [live, hO, hF, hn 6]
  · rw [hV]; simp [live, hO, hF, hn 4]

/-- C4: on every initialised machine and for positive quanta `a` and `b`,
`runSystem a` returns `true` and leaves `currentTimestamp` exactly `a` above
its old value (so strictly above), and `runSystem a` followed by
`runSystem b` ends at the same timestamp as one `runSystem (a + b)`. -/
theorem C4_timestamp {σ : Type} (P : Peripherals σ) (s : TI994 σ) (a b : Int)
    (hs : initialised s) (ha : 0 < a) (_hb : 0 < b) :
    ∃ s1 s2 s3, TI994.runSystem P a s = some (true, s1) ∧
      s1.currentTimestamp = s.currentTimestamp + a ∧
      s.currentTimestamp < s1.currentTimestamp ∧
      TI994.runSystem P b s1 = some (true, s2) ∧
      TI994.runSystem P (a + b) s = some (true, s3) ∧
      s2.currentTimestamp = s3.currentTimestamp := by
  obtain ⟨cpu, vdp, hc, hv, hlc, hlv⟩ := live_some_of_initialised hs
  obtain ⟨s1, h1, ht1, hi1, _, _⟩ := runSystem_effect P a s cpu vdp hc hv hlc hlv
  obtain ⟨cpu1, vdp1, hc1, hv1, hlc1, hlv1⟩ := live_some_of_initialised hi1
  obtain ⟨s2, h2, ht2, _, _, _⟩ := runSystem_effect P b s1 cpu1 vdp1 hc1 hv1 hlc1 hlv1
  obtain ⟨s3, h3, ht3, _, _, _⟩ := runSystem_effect P (a + b) s cpu vdp hc hv hlc hlv
  exact ⟨s1, s2, s3, h1, ht1, by omega, h2, h3, by omega⟩

/-- Instance of C4 on the sample machine with quanta 3 and 4. -/
theorem C4_timestamp_witness :
    initialised sampleMachine ∧ (0 : Int) < 3 ∧ (0 : Int) < 4 ∧
    ∃ s1 s2 s3, TI994.runSystem unitPeripherals 3 sampleMachine = some (true, s1) ∧
      s1.currentTimestamp = sampleMachine.currentTimestamp + 3 ∧
      sampleMachine.currentTimestamp < s1.currentTimestamp ∧
      TI994.runSystem unitPeripherals 4 s1 = some (true, s2) ∧
      TI994.runSystem unitPeripherals (3 + 4) sampleMachine = some (true, s3) ∧
      s2.currentTimestamp = s3.currentTimestamp :=
  ⟨initSystem_initialised _ _ _ (by simp [TI994.fresh]), by decide, by decide,
    C4_timestamp unitPeripherals sampleMachine 3 4
      (initSystem_initialised _ _ _ (by simp [TI994.fresh])) (by decide) (by decide)⟩

/-- C5: on an initialised machine, if the VDP's `isIntActive` is true when polled
in a tick (after the CPU and the VDP have operated at the advanced
timestamp), the interrupt line is asserted in the machine that tick returns,
and it is still asserted after every sequence of following ticks (so in
particular up to the first later tick that observes the signal false). -/
theorem C5_interrupt_line {σ : Type} (P : Peripherals σ) (s : TI994 σ) (q : Int)
    (cpu vdp : Nat) (hs : initialised s) (hc : s.pCPU = some cpu) (hv : s.pVDP = some vdp)
    (hpoll : P.isIntActive vdp (P.operate vdp (s.currentTimestamp + q)
      (P.operate cpu (s.currentTimestamp + q) s.world)) = true) :
    ∃ s1, TI994.runSystem P q s = some (true, s1) ∧ s1.interruptLine = true ∧
      ∀ qs : List Int, ∃ s2, runSystemSeq P qs s1 = some s2 ∧ s2.interruptLine = true := by
  have hlc : live s (some cpu) = true := by rw [← hc]; exact hs.1
  have hlv : live s (some vdp) = true := by rw [← hv]; exact hs.2
  obtain ⟨s1, h1, _, hi1, _, hp⟩ := runSystem_effect P q s cpu vdp hc hv hlc hlv
  refine ⟨s1, h1, hp hpoll, ?_⟩
  intro qs
  obtain ⟨s2, h2, _, _, hl⟩ := runSystemSeq_effect P qs s1 hi1
  exact ⟨s2, h2, hl (hp hpoll)⟩

/-- Instance of C5 on the sample machine, whose VDP always signals. -/
theorem C5_interrupt_line_witness :
    initialised sampleMachine ∧ sampleMachine.pCPU = some 6 ∧ sampleMachine.pVDP = some 4 ∧
    ∃ s1, TI994.runSystem unitPeripherals 1 sampleMachine = some (true, s1) ∧
      s1.interruptLine = true ∧
      ∀ qs : List Int, ∃ s2, runSystemSeq unitPeripherals qs s1 = some s2 ∧
        s2.interruptLine = true :=
  ⟨initSystem_initialised _ _ _ (by simp [TI994.fresh]),
    (initSystem_spec unitPeripherals sampleGROM (TI994.fresh ())).2.2.2.2.2.2.2.1,
    (initSystem_spec unitPeripherals sampleGROM (TI994.fresh ())).2.2.2.2.2.1,
    C5_interrupt_line unitPeripherals sampleMachine 1 6 4
      (initSystem_initialised _ _ _ (by simp [TI994.fresh]))
      (initSystem_spec unitPeripherals sampleGROM (TI994.fresh ())).2.2.2.2.2.2.2.1
      (initSystem_spec unitPeripherals sampleGROM (TI994.fresh ())).2.2.2.2.2.1 rfl⟩

/-! ## C6: init, deinit, init -/

theorem deInitSystem_fst {σ : Type} (P : Peripherals σ) (s : TI994 σ) :
    (TI994.deInitSystem P s).1 = true := rfl

/-- The view of the entries of the closed-form tables does not depend on the
handles: in any machine whose five device pointers are consecutive fresh
handles, the views are those of the machine with handles 1..5. -/
theorem entryView_maps {σ : Type} (g : Classic99GROM) (t : TI994 σ) (n : Nat)
    (hG : t.pGrom = some (n + 1)) (hR : t.pRom = some (n + 2))
    (hS : t.pScratch = some (n + 3)) (hV : t.pVDP = some (n + 4))
    (hK : t.pKey = some (n + 5)) (a : Nat) :
    entryView t (mainReadMap g (some (n + 2)) (some (n + 3)) (some (n + 4)) (some (n + 1)) a)
      = entryView sampleMachine (mainReadMap g (some 2) (some 3) (some 4) (some 1) a) ∧
    entryView t (mainWriteMap g (some (n + 3)) (some (n + 4)) (some (n + 1)) a)
      = entryView sampleMachine (mainWriteMap g (some 3) (some 4) (some 1) a) ∧
    entryView t (ioReadMap (some (n + 5)) a)
      = entryView sampleMachine (ioReadMap (some 5) a) ∧
    entryView t (ioWriteMap (some (n + 5)) a)
      = entryView sampleMachine (ioWriteMap (some 5) a) := by
  obtain ⟨_, _, sG, sR, sS, sV, sK, _⟩ :=
    initSystem_spec unitPeripherals sampleGROM (TI994.fresh ())
  have sG2 : sampleMachine.pGrom = some 1 := sG
  have sR2 : sampleMachine.pRom = some 2 := sR
  have sS2 : sampleMachine.pScratch = some 3 := sS
  have sV2 : sampleMachine.pVDP = some 4 := sV
  have sK2 : sampleMachine.pKey = some 5 := sK
  refine ⟨?_, ?_, ?_, ?_⟩
  · simp only [mainReadMap]
    split_ifs <;>
      simp [entryView, roleOf, hG, hR, hS, hV, hK, sG2, sR2, sS2, sV2, sK2]
  · simp only [mainWriteMap]
    split_ifs <;>
      simp [entryView, roleOf, hG, hR, hS, hV, hK, sG2, sR2, sS2, sV2, sK2]
  · simp only [ioReadMap]
    split_ifs <;>
      simp [entryView, roleOf, hG, hR, hS, hV, hK, sG2, sR2, sS2, sV2, sK2]
  · simp only [ioWriteMap]
    split_ifs <;>
      simp [entryView, roleOf, hG, hR, hS, hV, hK, sG2, sR2, sS2, sV2, sK2]

/-- The views of the four tables after `initSystem`, from any starting state. -/
theorem initSystem_views {σ : Type} (P : Peripherals σ) (g : Classic99GROM) (s : TI994 σ)
    (a : Nat) :
    (resolve (TI994.initSystem P g s).2.memorySpaceRead a).map
        (entryView (TI994.initSystem P g s).2)
      = (if a < 65536 then some (entryView sampleMachine
          (mainReadMap g (some 2) (some 3) (some 4) (some 1) a)) else none) ∧
    (resolve (TI994.initSystem P g s).2.memorySpaceWrite a).map
        (entryView (TI994.initSystem P g s).2)
      = (if a < 65536 then some (entryView sampleMachine
          (mainWriteMap g (some 3) (some 4) (some 1) a)) else none) ∧
    (resolve (TI994.initSystem P g s).2.ioSpaceRead a).map
        (entryView (TI994.initSystem P g s).2)
      = (if a < 4096 then some (entryView sampleMachine (ioReadMap (some 5) a)) else none) ∧
    (resolve (TI994.initSystem P g s).2.ioSpaceWrite a).map
        (entryView (TI994.initSystem P g s).2)
      = (if a < 4096 then some (entryView sampleMachine (ioWriteMap (some 5) a))
          else none) := by
  obtain ⟨_, _, hG, hR, hS, hV, hK, _, _, _, _, _, ht⟩ := initSystem_spec P g s
  obtain ⟨v1, v2, v3, v4⟩ := entryView_maps g _ s.objects.length hG hR hS hV hK a
  rw [ht.mainRead a, ht.mainWrite a, ht.ioRead a, ht.ioWrite a]
  refine ⟨?_, ?_, ?_, ?_⟩
  · split
    · rw [Option.map_some', v1]
    · rfl
  · split
    · rw [Option.map_some', v2]
    · rfl
  · split
    · rw [Option.map_some', v3]
    · rfl
  · split
    · rw [Option.map_some', v4]
    · rfl

/-- C6: on one machine, `initSystem`, `deInitSystem`, `initSystem` all return
`true`, and the four tables after the second `initSystem` are equivalent to
those after the first: the sizes are 65536 and 4096 both times, an address
resolves in one exactly when it resolves in the other, and at every address
the mapped status, the device role and the local key agree. -/
theorem C6_reinit_equivalent {σ : Type} (P : Peripherals σ) (g : Classic99GROM)
    (s : TI994 σ) (a : Nat) :
    (TI994.initSystem P g s).1 = true ∧
    (TI994.deInitSystem P (TI994.initSystem P g s).2).1 = true ∧
    (TI994.initSystem P g (TI994.deInitSystem P (TI994.initSystem P g s).2).2).1 = true ∧
    (TI994.initSystem P g s).2.memorySize = 65536 ∧
    (TI994.initSystem P g s).2.ioSize = 4096 ∧
    (TI994.initSystem P g (TI994.deInitSystem P (TI994.initSystem P g s).2).2).2.memorySize
      = 65536 ∧
    (TI994.initSystem P g (TI994.deInitSystem P (TI994.initSystem P g s).2).2).2.ioSize
      = 4096 ∧
    ((resolve (TI994.initSystem P g s).2.memorySpaceRead a).isSome = decide (a < 65536)) ∧
    ((resolve (TI994.initSystem P g s).2.ioSpaceRead a).isSome = decide (a < 4096)) ∧
    (resolve (TI994.initSystem P g
        (TI994.deInitSystem P (TI994.initSystem P g s).2).2).2.memorySpaceRead a).map
      (entryView (TI994.initSystem P g (TI994.deInitSystem P (TI994.initSystem P g s).2).2).2)
      = (resolve (TI994.initSystem P g s).2.memorySpaceRead a).map
          (entryView (TI994.initSystem P g s).2) ∧
    (resolve (TI994.initSystem P g
        (TI994.deInitSystem P (TI994.initSystem P g s).2).2).2.memorySpaceWrite a).map
      (entryView (TI994.initSystem P g (TI994.deInitSystem P (TI994.initSystem P g s).2).2).2)
      = (resolve (TI994.initSystem P g s).2.memorySpaceWrite a).map
          (entryView (TI994.initSystem P g s).2) ∧
    (resolve (TI994.initSystem P g
        (TI994.deInitSystem P (TI994.initSystem P g s).2).2).2.ioSpaceRead a).map
      (entryView (TI994.initSystem P g (TI994.deInitSystem P (TI994.initSystem P g s).2).2).2)
      = (resolve (TI994.initSystem P g s).2.ioSpaceRead a).map
          (entryView (TI994.initSystem P g s).2) ∧
    (resolve (TI994.initSystem P g
        (TI994.deInitSystem P (TI994.initSystem P g s).2).2).2.ioSpaceWrite a).map
      (entryView (TI994.initSystem P g (TI994.deInitSystem P (TI994.initSystem P g s).2).2).2)
      = (resolve (TI994.initSystem P g s).2.ioSpaceWrite a).map
          (entryView (TI994.initSystem P g s).2) := by
  have ht1 := initSystem_tables P g s
  have ht3 := initSystem_tables P g (TI994.deInitSystem P (TI994.initSystem P g s).2).2
  obtain ⟨a1, a2, a3, a4⟩ := initSystem_views P g s a
  obtain ⟨b1, b2, b3, b4⟩ :=
    initSystem_views P g (TI994.deInitSystem P (TI994.initSystem P g s).2).2 a
  refine ⟨(initSystem_spec P g s).1, deInitSystem_fst P _, (initSystem_spec P g _).1,
    ht1.memorySize, ht1.ioSize, ht3.memorySize, ht3.ioSize, ?_, ?_,
    b1.trans a1.symm, b2.trans a2.symm, b3.trans a3.symm, b4.trans a4.symm⟩
  · rw [ht1.mainRead a]; split <;> simp [*]
  · rw [ht1.ioRead a]; split <;> simp [*]

/-! ## The variant hook -/

/-- What `createVariantPeripherals` does to any machine: four fresh handles, four
classes logged, everything else kept. -/
theorem createVariantPeripherals_spec {σ : Type} (P : Peripherals σ) (s : TI994 σ) :
    (TI994A22.createVariantPeripherals P s).pGrom = some s.objects.length ∧
    (TI994A22.createVariantPeripherals P s).pRom = some (s.objects.length + 1) ∧
    (TI994A22.createVariantPeripherals P s).pVDP = some (s.objects.length + 2) ∧
    (TI994A22.createVariantPeripherals P s).pKey = some (s.objects.length + 3) ∧
    (TI994A22.createVariantPeripherals P s).objects = s.objects ++
      [.TI994A22GROM, .TI994AROM, .TMS9918A, .KB994A] ∧
    (TI994A22.createVariantPeripherals P s).theTV = s.theTV ∧
    (TI994A22.createVariantPeripherals P s).pScratch = s.pScratch ∧
    (TI994A22.createVariantPeripherals P s).pCPU = s.pCPU ∧
    (TI994A22.createVariantPeripherals P s).freed = s.freed ∧
    (TI994A22.createVariantPeripherals P s).memorySpaceRead = s.memorySpaceRead ∧
    (TI994A22.createVariantPeripherals P s).memorySpaceWrite = s.memorySpaceWrite ∧
    (TI994A22.createVariantPeripherals P s).ioSpaceRead = s.ioSpaceRead ∧
    (TI994A22.createVariantPeripherals P s).ioSpaceWrite = s.ioSpaceWrite ∧
    (TI994A22.createVariantPeripherals P s).memorySize = s.memorySize ∧
    (TI994A22.createVariantPeripherals P s).ioSize = s.ioSize := by
  refine ⟨?_, ?_, ?_, ?_, ?_, ?_, ?_, ?_, ?_, ?_, ?_, ?_, ?_, ?_, ?_⟩ <;>
    simp [TI994A22.createVariantPeripherals, newObject, devInit]

theorem claimIOWrite_frame {σ : Type} (i : Nat) (p : Option Nat) (k : Nat) (t : TI994 σ) :
    (claimIOWrite i p k t).memorySpaceRead = t.memorySpaceRead ∧
    (claimIOWrite i p k t).memorySpaceWrite = t.memorySpaceWrite ∧
    (claimIOWrite i p k t).ioSpaceRead = t.ioSpaceRead := by
  unfold claimIOWrite
  split
  · exact ⟨rfl, rfl, rfl⟩
  · exact ⟨rfl, rfl, rfl⟩

theorem resolve_claimIOWrite {σ : Type} (i : Nat) (p : Option Nat) (k : Nat) (t : TI994 σ)
    (a : Nat) :
    resolve (claimIOWrite i p k t).ioSpaceWrite a =
      if i < t.ioSize ∧ i = a then (resolve t.ioSpaceWrite a).map (fun _ => ⟨p, k⟩)
      else resolve t.ioSpaceWrite a := by
  unfold claimIOWrite
  by_cases hb : i < t.ioSize
  · rw [if_pos hb]
    show resolve (t.ioSpaceWrite.map _) a = _
    rw [resolve_map_set]
    by_cases he : i = a
    · rw [if_pos he, if_pos ⟨hb, he⟩]
    · rw [if_neg he, if_neg (fun h => he h.2)]
  · rw [if_neg hb, if_neg (fun h => hb h.1)]

/-- What `claimAlphaLock` does to any machine: only IO-Write entries change, and
exactly those at `20n+21` with `n ≤ 102` that lie inside the IO space, which
are set to the keyboard pointer with key 21. -/
theorem claimAlphaLock_spec {σ : Type} (s : TI994 σ) :
    rest (TI994A22.claimAlphaLock s) = rest s ∧
    (TI994A22.claimAlphaLock s).memorySpaceRead = s.memorySpaceRead ∧
    (TI994A22.claimAlphaLock s).memorySpaceWrite = s.memorySpaceWrite ∧
    (TI994A22.claimAlphaLock s).ioSpaceRead = s.ioSpaceRead ∧
    ∀ a, resolve (TI994A22.claimAlphaLock s).ioSpaceWrite a =
      if 21 ≤ a ∧ a < 2062 ∧ (a - 21) % 20 = 0 ∧ a < s.ioSize then
        (resolve s.ioSpaceWrite a).map (fun _ => ⟨s.pKey, 21⟩)
      else resolve s.ioSpaceWrite a := by
  obtain ⟨i, hi, hmod, hle, hr, h1, h2, h3, h4⟩ := forLoop_rule 0x800 20 (by decide)
    (fun idx s => claimIOWrite (idx + 21) s.pKey 21 s)
    (fun i t => i % 20 = 0 ∧ i ≤ 2060 ∧ rest t = rest s ∧
      t.memorySpaceRead = s.memorySpaceRead ∧ t.memorySpaceWrite = s.memorySpaceWrite ∧
      t.ioSpaceRead = s.ioSpaceRead ∧
      ∀ a, resolve t.ioSpaceWrite a =
        if 21 ≤ a ∧ a < i + 2 ∧ (a - 21) % 20 = 0 ∧ a < s.ioSize then
          (resolve s.ioSpaceWrite a).map (fun _ => ⟨s.pKey, 21⟩)
        else resolve s.ioSpaceWrite a)
    (by
      rintro i t hi ⟨hmod, hle, hr, h1, h2, h3, h4⟩
      have hk : t.pKey = s.pKey := rest_pKey hr
      have hsz : t.ioSize = s.ioSize := (rest_fields hr).2.2.2.2.2.2.2.1
      obtain ⟨f1, f2, f3⟩ := claimIOWrite_frame (i + 21) t.pKey 21 t
      refine ⟨by omega, by omega, by rw [rest_claimIOWrite]; exact hr, f1.trans h1,
        f2.trans h2, f3.trans h3, ?_⟩
      intro a
      show resolve (claimIOWrite (i + 21) t.pKey 21 t).ioSpaceWrite a = _
      rw [resolve_claimIOWrite, h4 a, hk, hsz]
      by_cases he : i + 21 < s.ioSize ∧ i + 21 = a
      · have c1 : ¬ (21 ≤ a ∧ a < i + 2 ∧ (a - 21) % 20 = 0 ∧ a < s.ioSize) := by omega
        have c2 : 21 ≤ a ∧ a < i + 20 + 2 ∧ (a - 21) % 20 = 0 ∧ a < s.ioSize := by omega
        rw [if_pos he, if_neg c1, if_pos c2]
      · rw [if_neg he]
        by_cases c1 : 21 ≤ a ∧ a < i + 2 ∧ (a - 21) % 20 = 0 ∧ a < s.ioSize
        · have c2 : 21 ≤ a ∧ a < i + 20 + 2 ∧ (a - 21) % 20 = 0 ∧ a < s.ioSize := by
            omega
          rw [if_pos c1, if_pos c2]
        · have c2 : ¬ (21 ≤ a ∧ a < i + 20 + 2 ∧ (a - 21) % 20 = 0 ∧ a < s.ioSize) := by
            omega
          rw [if_neg c1, if_neg c2])
    0x800 0 s (by omega)
    ⟨by omega, by omega, rfl, rfl, rfl, rfl, fun a => by
      have c1 : ¬ (21 ≤ a ∧ a < 0 + 2 ∧ (a - 21) % 20 = 0 ∧ a < s.ioSize) := by omega
      rw [if_neg c1]⟩
  have hi2 : i = 2060 := by omega
  subst hi2
  exact ⟨hr, h1, h2, h3, h4⟩

/-- What `initSpecificSystem` does to any machine. -/
theorem initSpecificSystem_spec {σ : Type} (P : Peripherals σ) (s : TI994 σ) :
    (TI994A22.initSpecificSystem P s).1 = true ∧
    (TI994A22.initSpecificSystem P s).2.pGrom = some s.objects.length ∧
    (TI994A22.initSpecificSystem P s).2.pRom = some (s.objects.length + 1) ∧
    (TI994A22.initSpecificSystem P s).2.pVDP = some (s.objects.length + 2) ∧
    (TI994A22.initSpecificSystem P s).2.pKey = some (s.objects.length + 3) ∧
    (TI994A22.initSpecificSystem P s).2.objects = s.objects ++
      [.TI994A22GROM, .TI994AROM, .TMS9918A, .KB994A] ∧
    (TI994A22.initSpecificSystem P s).2.memorySpaceRead = s.memorySpaceRead ∧
    (TI994A22.initSpecificSystem P s).2.memorySpaceWrite = s.memorySpaceWrite ∧
    (TI994A22.initSpecificSystem P s).2.ioSpaceRead = s.ioSpaceRead ∧
    (∀ a, resolve (TI994A22.initSpecificSystem P s).2.ioSpaceWrite a =
      if 21 ≤ a ∧ a < 2062 ∧ (a - 21) % 20 = 0 ∧ a < s.ioSize then
        (resolve s.ioSpaceWrite a).map (fun _ => ⟨some (s.objects.length + 3), 21⟩)
      else resolve s.ioSpaceWrite a) := by
  obtain ⟨cG, cR, cV, cK, cO, _, _, _, _, c1, c2, c3, c4, _, c6⟩ :=
    createVariantPeripherals_spec P s
  obtain ⟨hr, h1, h2, h3, h4⟩ :=
    claimAlphaLock_spec (TI994A22.createVariantPeripherals P s)
  obtain ⟨_, _, rO, _⟩ := rest_fields hr
  refine ⟨rfl, (rest_pGrom hr).trans cG, (rest_pRom hr).trans cR, (rest_pVDP hr).trans cV,
    (rest_pKey hr).trans cK, rO.trans cO, h1.trans c1, h2.trans c2, h3.trans c3, ?_⟩
  intro a
  have := h4 a
  rw [cK, c4, c6] at this
  exact this

theorem mainReadMap_grom (g : Classic99GROM) (r sc v gr : Option Nat) (a : Nat)
    (h1 : 0x9800 ≤ a) (h2 : a < 0x9c00) (h3 : a % 2 = 0) :
    mainReadMap g r sc v gr a = ⟨gr, if a &&& 2 ≠ 0 then g.GROM_MODE_ADDRESS else 0⟩ := by
  rw [mainReadMap, if_neg (by omega), if_neg (by omega), if_neg (by omega),
    if_pos ⟨h1, h2, h3⟩]

theorem mainWriteMap_grom (g : Classic99GROM) (sc v gr : Option Nat) (a : Nat)
    (h1 : 0x9c00 ≤ a) (h2 : a < 0xa000) (h3 : a % 2 = 0) :
    mainWriteMap g sc v gr a = ⟨gr, if a &&& 2 ≠ 0 then
      g.GROM_MODE_ADDRESS ||| g.GROM_MODE_WRITE else g.GROM_MODE_WRITE⟩ := by
  rw [mainWriteMap, if_neg (by omega), if_neg (by omega), if_pos ⟨h1, h2, h3⟩]

theorem mainReadMap_vdp (g : Classic99GROM) (r sc v gr : Option Nat) (a : Nat)
    (h1 : 0x8800 ≤ a) (h2 : a < 0x8c00) (h3 : a % 2 = 0) :
    mainReadMap g r sc v gr a = ⟨v, if a &&& 2 ≠ 0 then 1 else 0⟩ := by
  rw [mainReadMap, if_neg (by omega), if_neg (by omega), if_pos ⟨h1, h2, h3⟩]

theorem mainWriteMap_vdp (g : Classic99GROM) (sc v gr : Option Nat) (a : Nat)
    (h1 : 0x8c00 ≤ a) (h2 : a < 0x9000) (h3 : a % 2 = 0) :
    mainWriteMap g sc v gr a = ⟨v, if a &&& 2 ≠ 0 then 1 else 0⟩ := by
  rw [mainWriteMap, if_neg (by omega), if_pos ⟨h1, h2, h3⟩]

/-- The GROM ports of the machine `initSystem` returns resolve to its `pGrom`,
which is the handle right after the TV's. -/
theorem initSystem_grom_ports {σ : Type} (P : Peripherals σ) (g : Classic99GROM)
    (s : TI994 σ) :
    resolve (TI994.initSystem P g s).2.memorySpaceRead 0x9800
      = some ⟨some (s.objects.length + 1), if 0x9800 &&& 2 ≠ 0 then g.GROM_MODE_ADDRESS
          else 0⟩ ∧
    resolve (TI994.initSystem P g s).2.memorySpaceWrite 0x9c00
      = some ⟨some (s.objects.length + 1), if 0x9c00 &&& 2 ≠ 0 then
          g.GROM_MODE_ADDRESS ||| g.GROM_MODE_WRITE else g.GROM_MODE_WRITE⟩ := by
  obtain ⟨_, _, _, _, _, _, _, _, _, _, _, _, ht⟩ := initSystem_spec P g s
  constructor
  · rw [ht.mainRead, if_pos (by decide),
      mainReadMap_grom g _ _ _ _ 0x9800 (by decide) (by decide) (by decide)]
  · rw [ht.mainWrite, if_pos (by decide),
      mainWriteMap_grom g _ _ _ 0x9c00 (by decide) (by decide) (by decide)]

/-! ## C7: the variant machine -/

/-- C7 (what the code does): on a `TI994A22`, whichever way the inherited
`initSystem` and the hook `initSpecificSystem` are combined (the inherited
`initSystem` alone, which never calls the hook; the hook before it; the hook
after it), the GROM read port 0x9800 and the GROM write port 0x9C00 resolve
to an object of class `TI994GROM`, the base device built by `initSystem`,
not to the `TI994A22GROM` built by the hook; after the hook has run last,
`pGrom` is the `TI994A22GROM` and differs from the device at the ports. -/
theorem C7_variant_grom_ports {σ : Type} (P : Peripherals σ) (g : Classic99GROM)
    (s : TI994 σ) :
    (deviceClassAt (TI994A22.initSystem P g s).2
        (TI994A22.initSystem P g s).2.memorySpaceRead 0x9800 = some .TI994GROM ∧
      deviceClassAt (TI994A22.initSystem P g s).2
        (TI994A22.initSystem P g s).2.memorySpaceWrite 0x9c00 = some .TI994GROM) ∧
    (deviceClassAt (TI994.initSystem P g (TI994A22.initSpecificSystem P s).2).2
        (TI994.initSystem P g (TI994A22.initSpecificSystem P s).2).2.memorySpaceRead 0x9800
        = some .TI994GROM ∧
      deviceClassAt (TI994.initSystem P g (TI994A22.initSpecificSystem P s).2).2
        (TI994.initSystem P g (TI994A22.initSpecificSystem P s).2).2.memorySpaceWrite 0x9c00
        = some .TI994GROM) ∧
    (deviceClassAt (TI994A22.initSpecificSystem P (TI994.initSystem P g s).2).2
        (TI994A22.initSpecificSystem P (TI994.initSystem P g s).2).2.memorySpaceRead 0x9800
        = some .TI994GROM ∧
      deviceClassAt (TI994A22.initSpecificSystem P (TI994.initSystem P g s).2).2
        (TI994A22.initSpecificSystem P (TI994.initSystem P g s).2).2.memorySpaceWrite 0x9c00
        = some .TI994GROM ∧
      classOf (TI994A22.initSpecificSystem P (TI994.initSystem P g s).2).2
        (TI994A22.initSpecificSystem P (TI994.initSystem P g s).2).2.pGrom
        = some .TI994A22GROM) := by
  have base : ∀ t : TI994 σ,
      deviceClassAt (TI994.initSystem P g t).2
        (TI994.initSystem P g t).2.memorySpaceRead 0x9800 = some .TI994GROM ∧
      deviceClassAt (TI994.initSystem P g t).2
        (TI994.initSystem P g t).2.memorySpaceWrite 0x9c00 = some .TI994GROM := by
    intro t
    obtain ⟨p1, p2⟩ := initSystem_grom_ports P g t
    obtain ⟨_, _, hG, _⟩ := initSystem_spec P g t
    have hc := (initSystem_classes P g t).1
    rw [hG] at hc
    constructor
    · rw [deviceClassAt, p1, Option.some_bind]
      exact hc
    · rw [deviceClassAt, p2, Option.some_bind]
      exact hc
  refine ⟨base s, base _, ?_⟩
  obtain ⟨p1, p2⟩ := initSystem_grom_ports P g s
  obtain ⟨_, _, _, _, _, _, _, _, hO, _⟩ := initSystem_spec P g s
  obtain ⟨_, vG, _, _, _, vO, v1, v2, _, _⟩ :=
    initSpecificSystem_spec P (TI994.initSystem P g s).2
  rw [v1, v2, vG]
  have hO2 : (TI994A22.initSpecificSystem P (TI994.initSystem P g s).2).2.objects =
      s.objects ++ [.Classic99TV, .TI994GROM, .TI994ROM, .TI994Scratchpad, .TMS9918, .KB994,
        .TMS9900, .TI994A22GROM, .TI994AROM, .TMS9918A, .KB994A] := by
    rw [vO, hO]; simp
  have hlen : (TI994.initSystem P g s).2.objects.length = s.objects.length + 7 := by
    rw [hO]; simp
  refine ⟨?_, ?_, ?_⟩
  · rw [deviceClassAt, p1, Option.some_bind]
    show classOf _ (some (s.objects.length + 1)) = _
    rw [classOf, Option.some_bind, hO2, List.getElem?_append_right (by omega)]
    simp
  · rw [deviceClassAt, p2, Option.some_bind]
    show classOf _ (some (s.objects.length + 1)) = _
    rw [classOf, Option.some_bind, hO2, List.getElem?_append_right (by omega)]
    simp
  · rw [classOf, Option.some_bind, hO2, hlen, List.getElem?_append_right (by omega)]
    simp

/-! ## C8: VDP ports -/

/-- The device of a closed-form Main-Read entry is the VDP handle only at the
even addresses of the VDP read window; likewise for Main-Write. -/
theorem maps_who_vdp (g : Classic99GROM) (n a : Nat) :
    ((mainReadMap g (some (n + 2)) (some (n + 3)) (some (n + 4)) (some (n + 1)) a).who
        = some (n + 4) → 0x8800 ≤ a ∧ a ≤ 0x8bff ∧ a % 2 = 0) ∧
    ((mainWriteMap g (some (n + 3)) (some (n + 4)) (some (n + 1)) a).who
        = some (n + 4) → 0x8c00 ≤ a ∧ a ≤ 0x8fff ∧ a % 2 = 0) := by
  constructor
  · simp only [mainReadMap]
    split_ifs <;> simp <;> omega
  · simp only [mainWriteMap]
    split_ifs <;> simp <;> omega

/-- The closed-form main tables are unmapped at the odd addresses of the VDP
windows. -/
theorem maps_odd_vdp (g : Classic99GROM) (r sc v gr : Option Nat) (a : Nat)
    (h1 : 0x8800 ≤ a) (h2 : a ≤ 0x8fff) (h3 : a % 2 = 1) :
    mainReadMap g r sc v gr a = default ∧ mainWriteMap g sc v gr a = default := by
  constructor
  · rw [mainReadMap, if_neg (by omega), if_neg (by omega), if_neg (by omega),
      if_neg (by omega)]
  · rw [mainWriteMap, if_neg (by omega), if_neg (by omega), if_neg (by omega)]

/-- C8: after `TI994::initSystem` the VDP (a non-null pointer to the `TMS9918`
object) is bound at the even addresses of 0x8800..0x8BFF in Main-Read and of
0x8C00..0x8FFF in Main-Write, with local key 1 when `a & 2` is not zero and
0 otherwise; every odd address of either window is unmapped in both main
tables; and the VDP is bound nowhere else in the main tables. -/
theorem C8_vdp_ports {σ : Type} (P : Peripherals σ) (g : Classic99GROM) (s : TI994 σ)
    (a : Nat) :
    (TI994.initSystem P g s).2.pVDP ≠ none ∧
    classOf (TI994.initSystem P g s).2 (TI994.initSystem P g s).2.pVDP = some .TMS9918 ∧
    (0x8800 ≤ a → a ≤ 0x8bff → a % 2 = 0 →
      resolve (TI994.initSystem P g s).2.memorySpaceRead a
        = some ⟨(TI994.initSystem P g s).2.pVDP, if a &&& 2 ≠ 0 then 1 else 0⟩) ∧
    (0x8c00 ≤ a → a ≤ 0x8fff → a % 2 = 0 →
      resolve (TI994.initSystem P g s).2.memorySpaceWrite a
        = some ⟨(TI994.initSystem P g s).2.pVDP, if a &&& 2 ≠ 0 then 1 else 0⟩) ∧
    (0x8800 ≤ a → a ≤ 0x8fff → a % 2 = 1 →
      unmappedAt (TI994.initSystem P g s).2.memorySpaceRead a ∧
      unmappedAt (TI994.initSystem P g s).2.memorySpaceWrite a) ∧
    ((resolve (TI994.initSystem P g s).2.memorySpaceRead a).map PeripheralMap.who
        = some (TI994.initSystem P g s).2.pVDP → 0x8800 ≤ a ∧ a ≤ 0x8bff ∧ a % 2 = 0) ∧
    ((resolve (TI994.initSystem P g s).2.memorySpaceWrite a).map PeripheralMap.who
        = some (TI994.initSystem P g s).2.pVDP → 0x8c00 ≤ a ∧ a ≤ 0x8fff ∧ a % 2 = 0) := by
  obtain ⟨_, _, _, _, _, hV, _, _, _, _, _, _, ht⟩ := initSystem_spec P g s
  have hcls := (initSystem_classes P g s).2.2.2.1
  have hR := ht.mainRead a
  have hW := ht.mainWrite a
  rw [hV] at hcls ⊢
  refine ⟨by simp, hcls, ?_, ?_, ?_, ?_, ?_⟩
  · intro h1 h2 h3
    rw [hR, if_pos (by omega), mainReadMap_vdp g _ _ _ _ a h1 (by omega) h3]
  · intro h1 h2 h3
    rw [hW, if_pos (by omega), mainWriteMap_vdp g _ _ _ a h1 (by omega) h3]
  · intro h1 h2 h3
    obtain ⟨m1, m2⟩ := maps_odd_vdp g (some (s.objects.length + 2))
      (some (s.objects.length + 3)) (some (s.objects.length + 4))
      (some (s.objects.length + 1)) a h1 h2 h3
    constructor
    · apply unmappedAt_of_resolve (k := 0)
      rw [hR, if_pos (by omega), m1]; rfl
    · apply unmappedAt_of_resolve (k := 0)
      rw [hW, if_pos (by omega), m2]; rfl
  · rw [hR]
    intro h
    by_cases hlt : a < 65536
    · rw [if_pos hlt, Option.map_some'] at h
      exact (maps_who_vdp g s.objects.length a).1 (Option.some.inj h)
    · rw [if_neg hlt] at h
      exact absurd h (by simp)
  · rw [hW]
    intro h
    by_cases hlt : a < 65536
    · rw [if_pos hlt, Option.map_some'] at h
      exact (maps_who_vdp g s.objects.length a).2 (Option.some.inj h)
    · rw [if_neg hlt] at h
      exact absurd h (by simp)

/-- Instance of C8 on the sample machine: read port 0x8802 has key 1, write port
0x8C00 has key 0, and the odd address 0x8801 is unmapped in both tables. -/
theorem C8_vdp_ports_witness :
    resolve sampleMachine.memorySpaceRead 0x8802 = some ⟨sampleMachine.pVDP, 1⟩ ∧
    resolve sampleMachine.memorySpaceWrite 0x8c00 = some ⟨sampleMachine.pVDP, 0⟩ ∧
    unmappedAt sampleMachine.memorySpaceRead 0x8801 ∧
    unmappedAt sampleMachine.memorySpaceWrite 0x8801 :=
  ⟨(C8_vdp_ports unitPeripherals sampleGROM (TI994.fresh ()) 0x8802).2.2.1
      (by decide) (by decide) (by decide),
    (C8_vdp_ports unitPeripherals sampleGROM (TI994.fresh ()) 0x8c00).2.2.2.1
      (by decide) (by decide) (by decide),
    (C8_vdp_ports unitPeripherals sampleGROM (TI994.fresh ()) 0x8801).2.2.2.2.1
      (by decide) (by decide) (by decide)⟩

/-! ## C9: GROM ports -/

theorem and_two_pow_ne_zero_iff (x j : Nat) : x &&& 2 ^ j ≠ 0 ↔ x.testBit j = true := by
  constructor
  · intro h
    by_contra hb
    apply h
    apply Nat.eq_of_testBit_eq
    intro i
    rw [Nat.testBit_and, Nat.zero_testBit, Nat.testBit_two_pow]
    by_cases hij : j = i
    · subst hij; simp [hb]
    · simp [hij]
  · intro h h0
    have h1 : (x &&& 2 ^ j).testBit j = true := by
      rw [Nat.testBit_and, h, Nat.testBit_two_pow_self]; rfl
    rw [h0, Nat.zero_testBit] at h1
    exact absurd h1 (by simp)

/-- The flags carried by the GROM keys when the two mode flags are distinct
single bits: a read key never has the write flag, a write key always has
it, and either key has the address flag exactly when the condition holds. -/
theorem grom_key_flags (i j : Nat) (hij : i ≠ j) (c : Prop) [Decidable c] :
    ((if c then 2 ^ i else 0) &&& 2 ^ j = 0) ∧
    ((if c then 2 ^ i else 0) &&& 2 ^ i ≠ 0 ↔ c) ∧
    ((if c then 2 ^ i ||| 2 ^ j else 2 ^ j) &&& 2 ^ j ≠ 0) ∧
    ((if c then 2 ^ i ||| 2 ^ j else 2 ^ j) &&& 2 ^ i ≠ 0 ↔ c) := by
  have hji : j ≠ i := fun h => hij h.symm
  have n1 : ∀ x : Nat, x &&& 2 ^ j = 0 ↔ x.testBit j = false := by
    intro x
    have := and_two_pow_ne_zero_iff x j
    constructor
    · intro h0
      by_contra hb
      exact (this.2 (by simpa using hb)) h0
    · intro hb
      by_contra h0
      rw [this.1 h0] at hb
      exact absurd hb (by simp)
  by_cases hc : c
  · simp only [if_pos hc]
    refine ⟨?_, ?_, ?_, ?_⟩
    · rw [n1, Nat.testBit_two_pow_of_ne hij]
    · rw [and_two_pow_ne_zero_iff, Nat.testBit_two_pow_self]; simp [hc]
    · rw [and_two_pow_ne_zero_iff, Nat.testBit_or, Nat.testBit_two_pow_self]; simp
    · rw [and_two_pow_ne_zero_iff, Nat.testBit_or, Nat.testBit_two_pow_self]; simp [hc]
  · simp only [if_neg hc]
    refine ⟨?_, ?_, ?_, ?_⟩
    · rw [n1, Nat.zero_testBit]
    · rw [and_two_pow_ne_zero_iff, Nat.zero_testBit]; simp [hc]
    · rw [and_two_pow_ne_zero_iff, Nat.testBit_two_pow_self]
    · rw [and_two_pow_ne_zero_iff, Nat.testBit_two_pow_of_ne hji]; simp [hc]

/-- C9: after `TI994::initSystem` the GROM (a non-null pointer to the `TI994GROM`
object) is bound in Main-Read at every even address of 0x9800..0x9BFF with
key `GROM_MODE_ADDRESS` when `a & 2` is not zero and 0 otherwise, and in
Main-Write at every even address of 0x9C00..0x9FFF with key
`GROM_MODE_ADDRESS | GROM_MODE_WRITE` when `a & 2` is not zero and
`GROM_MODE_WRITE` otherwise; so, when the two flags are distinct single bits,
a key has the write flag exactly in the Main-Write bindings and the address
flag exactly when `a & 2` is not zero. -/
theorem C9_grom_ports {σ : Type} (P : Peripherals σ) (g : Classic99GROM) (s : TI994 σ)
    (a : Nat) :
    (TI994.initSystem P g s).2.pGrom ≠ none ∧
    classOf (TI994.initSystem P g s).2 (TI994.initSystem P g s).2.pGrom = some .TI994GROM ∧
    (0x9800 ≤ a → a ≤ 0x9bff → a % 2 = 0 →
      resolve (TI994.initSystem P g s).2.memorySpaceRead a
        = some ⟨(TI994.initSystem P g s).2.pGrom,
            if a &&& 2 ≠ 0 then g.GROM_MODE_ADDRESS else 0⟩) ∧
    (0x9c00 ≤ a → a ≤ 0x9fff → a % 2 = 0 →
      resolve (TI994.initSystem P g s).2.memorySpaceWrite a
        = some ⟨(TI994.initSystem P g s).2.pGrom,
            if a &&& 2 ≠ 0 then g.GROM_MODE_ADDRESS ||| g.GROM_MODE_WRITE
            else g.GROM_MODE_WRITE⟩) ∧
    (∀ i j : Nat, g.GROM_MODE_ADDRESS = 2 ^ i → g.GROM_MODE_WRITE = 2 ^ j → i ≠ j →
      (0x9800 ≤ a → a ≤ 0x9bff → a % 2 = 0 →
        ∃ k, keyAt (TI994.initSystem P g s).2.memorySpaceRead a = some k ∧
          k &&& g.GROM_MODE_WRITE = 0 ∧
          (k &&& g.GROM_MODE_ADDRESS ≠ 0 ↔ a &&& 2 ≠ 0)) ∧
      (0x9c00 ≤ a → a ≤ 0x9fff → a % 2 = 0 →
        ∃ k, keyAt (TI994.initSystem P g s).2.memorySpaceWrite a = some k ∧
          k &&& g.GROM_MODE_WRITE ≠ 0 ∧
          (k &&& g.GROM_MODE_ADDRESS ≠ 0 ↔ a &&& 2 ≠ 0))) := by
  obtain ⟨_, _, hG, _, _, _, _, _, _, _, _, _, ht⟩ := initSystem_spec P g s
  have hcls := (initSystem_classes P g s).1
  have hR := ht.mainRead a
  have hW := ht.mainWrite a
  rw [hG] at hcls ⊢
  have rd : 0x9800 ≤ a → a ≤ 0x9bff → a % 2 = 0 →
      resolve (TI994.initSystem P g s).2.memorySpaceRead a
        = some ⟨some (s.objects.length + 1),
            if a &&& 2 ≠ 0 then g.GROM_MODE_ADDRESS else 0⟩ := by
    intro h1 h2 h3
    rw [hR, if_pos (by omega), mainReadMap_grom g _ _ _ _ a h1 (by omega) h3]
  have wr : 0x9c00 ≤ a → a ≤ 0x9fff → a % 2 = 0 →
      resolve (TI994.initSystem P g s).2.memorySpaceWrite a
        = some ⟨some (s.objects.length + 1),
            if a &&& 2 ≠ 0 then g.GROM_MODE_ADDRESS ||| g.GROM_MODE_WRITE
            else g.GROM_MODE_WRITE⟩ := by
    intro h1 h2 h3
    rw [hW, if_pos (by omega), mainWriteMap_grom g _ _ _ a h1 (by omega) h3]
  refine ⟨by simp, hcls, rd, wr, ?_⟩
  intro i j hA hWr hij
  obtain ⟨f1, f2, f3, f4⟩ := grom_key_flags i j hij (a &&& 2 ≠ 0)
  rw [hA, hWr]
  constructor
  · intro h1 h2 h3
    refine ⟨_, ?_, f1, f2⟩
    rw [keyAt, rd h1 h2 h3, hA, Option.map_some']
  · intro h1 h2 h3
    refine ⟨_, ?_, f3, f4⟩
    rw [keyAt, wr h1 h2 h3, hA, hWr, Option.map_some']

/-- Instance of C9 on the sample machine, whose flags are the bits 2 and 1: read
port 0x9802 carries the address flag only and write port 0x9C02 both flags. -/
theorem C9_grom_ports_witness :
    resolve sampleMachine.memorySpaceRead 0x9802 = some ⟨sampleMachine.pGrom, 2⟩ ∧
    resolve sampleMachine.memorySpaceWrite 0x9c02 = some ⟨sampleMachine.pGrom, 3⟩ ∧
    (∃ k, keyAt sampleMachine.memorySpaceRead 0x9802 = some k ∧ k &&& 1 = 0 ∧
      (k &&& 2 ≠ 0 ↔ 0x9802 &&& 2 ≠ 0)) ∧
    (∃ k, keyAt sampleMachine.memorySpaceWrite 0x9c02 = some k ∧ k &&& 1 ≠ 0 ∧
      (k &&& 2 ≠ 0 ↔ 0x9c02 &&& 2 ≠ 0)) :=
  ⟨(C9_grom_ports unitPeripherals sampleGROM (TI994.fresh ()) 0x9802).2.2.1
      (by decide) (by decide) (by decide),
    (C9_grom_ports unitPeripherals sampleGROM (TI994.fresh ()) 0x9c02).2.2.2.1
      (by decide) (by decide) (by decide),
    ((C9_grom_ports unitPeripherals sampleGROM (TI994.fresh ()) 0x9802).2.2.2.2
      1 0 rfl rfl (by decide)).1 (by decide) (by decide) (by decide),
    ((C9_grom_ports unitPeripherals sampleGROM (TI994.fresh ()) 0x9c02).2.2.2.2
      1 0 rfl rfl (by decide)).2 (by decide) (by decide) (by decide)⟩

/-! ## C10: keyboard IO-Read blocks -/

/-- A mapped entry of the closed-form IO-Read table lies in a keyboard block and
its key is the address modulo 20. -/
theorem ioReadMap_mapped (h a : Nat)
    (hm : ((if a < 4096 then some (ioReadMap (some h) a) else none).bind
      PeripheralMap.who).isSome = true) :
    (a < 2060 ∧ 3 ≤ a % 20 ∧ a % 20 ≤ 10) ∧
    (if a < 4096 then some (ioReadMap (some h) a) else none).map PeripheralMap.addr
      = some (a % 20) := by
  by_cases hlt : a < 4096
  · rw [if_pos hlt] at hm ⊢
    by_cases hc : a < 2060 ∧ 3 ≤ a % 20 ∧ a % 20 ≤ 10
    · refine ⟨hc, ?_⟩
      rw [ioReadMap, if_pos hc]; rfl
    · rw [ioReadMap, if_neg hc] at hm
      exact absurd hm (by simp [default])
  · rw [if_neg hlt] at hm
    exact absurd hm (by simp)

/-- C10: after `TI994::initSystem`, for every block `n ≤ 102` and every offset
`off` of 3..10 the IO-Read address `20n+off` is bound to the keyboard (a
non-null pointer to the `KB994` object) with local key `off`; hence two
mapped IO-Read addresses have the same local key exactly when they are
congruent modulo 20. -/
theorem C10_keyboard_read {σ : Type} (P : Peripherals σ) (g : Classic99GROM) (s : TI994 σ) :
    (TI994.initSystem P g s).2.pKey ≠ none ∧
    classOf (TI994.initSystem P g s).2 (TI994.initSystem P g s).2.pKey = some .KB994 ∧
    (∀ n off : Nat, n ≤ 102 → 3 ≤ off → off ≤ 10 →
      resolve (TI994.initSystem P g s).2.ioSpaceRead (20 * n + off)
        = some ⟨(TI994.initSystem P g s).2.pKey, off⟩) ∧
    (∀ a b : Nat, mappedAt (TI994.initSystem P g s).2.ioSpaceRead a →
      mappedAt (TI994.initSystem P g s).2.ioSpaceRead b →
      (keyAt (TI994.initSystem P g s).2.ioSpaceRead a
          = keyAt (TI994.initSystem P g s).2.ioSpaceRead b ↔ a % 20 = b % 20)) := by
  obtain ⟨_, _, _, _, _, _, hK, _, _, _, _, _, ht⟩ := initSystem_spec P g s
  have hcls := (initSystem_classes P g s).2.2.2.2.1
  rw [hK] at hcls ⊢
  refine ⟨by simp, hcls, ?_, ?_⟩
  · intro n off hn h1 h2
    have hk : (20 * n + off) % 20 = off := by omega
    rw [ht.ioRead, if_pos (by omega), ioReadMap, if_pos (by omega), hk]
  · intro a b ha hb
    rw [mappedAt, ht.ioRead a] at ha
    rw [mappedAt, ht.ioRead b] at hb
    rw [keyAt, keyAt, ht.ioRead a, ht.ioRead b, (ioReadMap_mapped _ a ha).2,
      (ioReadMap_mapped _ b hb).2]
    constructor
    · intro h; exact Option.some.inj h
    · intro h; rw [h]

/-- Instance of C10 on the sample machine: the last block binds address 2050 with
key 10, and the mapped addresses 3 and 2043 share key 3. -/
theorem C10_keyboard_read_witness :
    resolve sampleMachine.ioSpaceRead (20 * 102 + 10) = some ⟨sampleMachine.pKey, 10⟩ ∧
    resolve sampleMachine.ioSpaceRead (20 * 0 + 3) = some ⟨sampleMachine.pKey, 3⟩ ∧
    resolve sampleMachine.ioSpaceRead (20 * 102 + 3) = some ⟨sampleMachine.pKey, 3⟩ :=
  ⟨(C10_keyboard_read unitPeripherals sampleGROM (TI994.fresh ())).2.2.1 102 10
      (by decide) (by decide) (by decide),
    (C10_keyboard_read unitPeripherals sampleGROM (TI994.fresh ())).2.2.1 0 3
      (by decide) (by decide) (by decide),
    (C10_keyboard_read unitPeripherals sampleGROM (TI994.fresh ())).2.2.1 102 3
      (by decide) (by decide) (by decide)⟩

/-! ## C11: unclaimed main addresses -/

/-- Where the closed-form main tables are mapped, for device handles that are
not null. -/
theorem main_maps_mapped (g : Classic99GROM) (r sc v gr a : Nat) :
    ((mainReadMap g (some r) (some sc) (some v) (some gr) a).who.isSome = true ↔
      (a < 0x2000 ∨ (0x8000 ≤ a ∧ a ≤ 0x83ff) ∨ (0x8800 ≤ a ∧ a ≤ 0x8bff ∧ a % 2 = 0) ∨
        (0x9800 ≤ a ∧ a ≤ 0x9bff ∧ a % 2 = 0))) ∧
    ((mainWriteMap g (some sc) (some v) (some gr) a).who.isSome = true ↔
      ((0x8000 ≤ a ∧ a ≤ 0x83ff) ∨ (0x8c00 ≤ a ∧ a ≤ 0x8fff ∧ a % 2 = 0) ∨
        (0x9c00 ≤ a ∧ a ≤ 0x9fff ∧ a % 2 = 0))) := by
  constructor
  · simp only [mainReadMap]
    split_ifs <;> simp [default] <;> omega
  · simp only [mainWriteMap]
    split_ifs <;> simp [default] <;> omega

/-- An entry in range is either mapped or unmapped, according to its device. -/
theorem mapped_or_unmapped (n a : Nat) (e : PeripheralMap) :
    (((if a < n then some e else none).bind PeripheralMap.who).isSome = true ↔
      (a < n ∧ e.who.isSome = true)) ∧
    ((if a < n then some e else none).map PeripheralMap.who = some none ↔
      (a < n ∧ e.who.isSome = false)) := by
  by_cases h : a < n
  · rw [if_pos h]
    cases hw : e.who <;> simp [h, hw]
  · rw [if_neg h]
    simp [h]

/-- C11: after `TI994::initSystem` a Main-Read entry is mapped if and only if its
address is in 0..0x1FFF, in 0x8000..0x83FF, or is an even address of
0x8800..0x8BFF or of 0x9800..0x9BFF, and a Main-Write entry is mapped if and
only if its address is in 0x8000..0x83FF or is an even address of
0x8C00..0x8FFF or of 0x9C00..0x9FFF; every other address below 65536
resolves to the unmapped sentinel. -/
theorem C11_unclaimed_main {σ : Type} (P : Peripherals σ) (g : Classic99GROM) (s : TI994 σ)
    (a : Nat) :
    (mappedAt (TI994.initSystem P g s).2.memorySpaceRead a ↔
      (a < 0x2000 ∨ (0x8000 ≤ a ∧ a ≤ 0x83ff) ∨ (0x8800 ≤ a ∧ a ≤ 0x8bff ∧ a % 2 = 0) ∨
        (0x9800 ≤ a ∧ a ≤ 0x9bff ∧ a % 2 = 0))) ∧
    (mappedAt (TI994.initSystem P g s).2.memorySpaceWrite a ↔
      ((0x8000 ≤ a ∧ a ≤ 0x83ff) ∨ (0x8c00 ≤ a ∧ a ≤ 0x8fff ∧ a % 2 = 0) ∨
        (0x9c00 ≤ a ∧ a ≤ 0x9fff ∧ a % 2 = 0))) ∧
    (unmappedAt (TI994.initSystem P g s).2.memorySpaceRead a ↔
      (a < 65536 ∧ ¬ (a < 0x2000 ∨ (0x8000 ≤ a ∧ a ≤ 0x83ff) ∨
        (0x8800 ≤ a ∧ a ≤ 0x8bff ∧ a % 2 = 0) ∨ (0x9800 ≤ a ∧ a ≤ 0x9bff ∧ a % 2 = 0)))) ∧
    (unmappedAt (TI994.initSystem P g s).2.memorySpaceWrite a ↔
      (a < 65536 ∧ ¬ ((0x8000 ≤ a ∧ a ≤ 0x83ff) ∨ (0x8c00 ≤ a ∧ a ≤ 0x8fff ∧ a % 2 = 0) ∨
        (0x9c00 ≤ a ∧ a ≤ 0x9fff ∧ a % 2 = 0)))) := by
  obtain ⟨_, _, _, _, _, _, _, _, _, _, _, _, ht⟩ := initSystem_spec P g s
  obtain ⟨mR, mW⟩ := main_maps_mapped g (s.objects.length + 2) (s.objects.length + 3)
    (s.objects.length + 4) (s.objects.length + 1) a
  rw [mappedAt, mappedAt, unmappedAt, unmappedAt, ht.mainRead a, ht.mainWrite a,
    (mapped_or_unmapped 65536 a _).1, (mapped_or_unmapped 65536 a _).1,
    (mapped_or_unmapped 65536 a _).2, (mapped_or_unmapped 65536 a _).2]
  refine ⟨?_, ?_, ?_, ?_⟩
  · rw [mR]; omega
  · rw [mW]; omega
  · rw [← mR]; simp
  · rw [← mW]; simp

/-! ## C18: the keyboard IO tables -/

/-- C18: after `TI994::initSystem` an IO-Write address `a` is mapped if and only
if `18 ≤ a ≤ 2061` and `(a - 18) mod 20 ≤ 3`, and then it is bound to the
keyboard with local key `18 + (a - 18) mod 20`; an IO-Read address `a` is
mapped if and only if `a ≤ 2050` and `3 ≤ a mod 20 ≤ 10`, and then it is
bound to the keyboard with local key `a mod 20`; every IO address of
2062..4095 is unmapped in both IO tables. -/
theorem C18_keyboard_io {σ : Type} (P : Peripherals σ) (g : Classic99GROM) (s : TI994 σ)
    (a : Nat) :
    (TI994.initSystem P g s).2.pKey ≠ none ∧
    (mappedAt (TI994.initSystem P g s).2.ioSpaceWrite a ↔
      (18 ≤ a ∧ a ≤ 2061 ∧ (a - 18) % 20 ≤ 3)) ∧
    (mappedAt (TI994.initSystem P g s).2.ioSpaceWrite a →
      resolve (TI994.initSystem P g s).2.ioSpaceWrite a
        = some ⟨(TI994.initSystem P g s).2.pKey, 18 + (a - 18) % 20⟩) ∧
    (mappedAt (TI994.initSystem P g s).2.ioSpaceRead a ↔
      (a ≤ 2050 ∧ 3 ≤ a % 20 ∧ a % 20 ≤ 10)) ∧
    (mappedAt (TI994.initSystem P g s).2.ioSpaceRead a →
      resolve (TI994.initSystem P g s).2.ioSpaceRead a
        = some ⟨(TI994.initSystem P g s).2.pKey, a % 20⟩) ∧
    (2062 ≤ a → a ≤ 4095 →
      unmappedAt (TI994.initSystem P g s).2.ioSpaceRead a ∧
      unmappedAt (TI994.initSystem P g s).2.ioSpaceWrite a) := by
  obtain ⟨_, _, _, _, _, _, hK, _, _, _, _, _, ht⟩ := initSystem_spec P g s
  rw [hK, mappedAt, mappedAt, unmappedAt, unmappedAt, ht.ioRead a, ht.ioWrite a,
    (mapped_or_unmapped 4096 a _).1, (mapped_or_unmapped 4096 a _).1,
    (mapped_or_unmapped 4096 a _).2, (mapped_or_unmapped 4096 a _).2]
  have wM : (ioWriteMap (some (s.objects.length + 5)) a).who.isSome = true ↔
      (18 ≤ a ∧ a < 2062 ∧ (a - 18) % 20 ≤ 3) := by
    rw [ioWriteMap]; split_ifs with h <;> simp [default, h]
  have rM : (ioReadMap (some (s.objects.length + 5)) a).who.isSome = true ↔
      (a < 2060 ∧ 3 ≤ a % 20 ∧ a % 20 ≤ 10) := by
    rw [ioReadMap]; split_ifs with h <;> simp [default, h]
  refine ⟨by simp, ?_, ?_, ?_, ?_, ?_⟩
  · rw [wM]; omega
  · rintro ⟨h1, h2⟩
    rw [if_pos h1, ioWriteMap, if_pos (wM.1 h2)]
  · rw [rM]; omega
  · rintro ⟨h1, h2⟩
    rw [if_pos h1, ioReadMap, if_pos (rM.1 h2)]
  · intro h1 h2
    have e1 : (ioReadMap (some (s.objects.length + 5)) a).who.isSome = false := by
      rw [ioReadMap, if_neg (by omega)]; rfl
    have e2 : (ioWriteMap (some (s.objects.length + 5)) a).who.isSome = false := by
      rw [ioWriteMap, if_neg (by omega)]; rfl
    exact ⟨⟨by omega, e1⟩, ⟨by omega, e2⟩⟩

/-- Instance of C11 on the sample machine: the last ROM address is mapped in
Main-Read, the next address is unmapped, and address 0 is unmapped in
Main-Write. -/
theorem C11_unclaimed_main_witness :
    mappedAt sampleMachine.memorySpaceRead 0x1fff ∧
    unmappedAt sampleMachine.memorySpaceRead 0x2000 ∧
    unmappedAt sampleMachine.memorySpaceWrite 0 :=
  ⟨(C11_unclaimed_main unitPeripherals sampleGROM (TI994.fresh ()) 0x1fff).1.2 (by decide),
    (C11_unclaimed_main unitPeripherals sampleGROM (TI994.fresh ()) 0x2000).2.2.1.2
      (by decide),
    (C11_unclaimed_main unitPeripherals sampleGROM (TI994.fresh ()) 0).2.2.2.2 (by decide)⟩

/-- Instance of C18 on the sample machine: IO-Write 2061 is the keyboard with key
21 (not 1), IO-Read 2050 is the keyboard with key 10, and 2062 is unmapped
in both IO tables. -/
theorem C18_keyboard_io_witness :
    resolve sampleMachine.ioSpaceWrite 2061 = some ⟨sampleMachine.pKey, 21⟩ ∧
    resolve sampleMachine.ioSpaceRead 2050 = some ⟨sampleMachine.pKey, 10⟩ ∧
    unmappedAt sampleMachine.ioSpaceRead 2062 ∧ unmappedAt sampleMachine.ioSpaceWrite 2062 :=
  ⟨(C18_keyboard_io unitPeripherals sampleGROM (TI994.fresh ()) 2061).2.2.1
      ((C18_keyboard_io unitPeripherals sampleGROM (TI994.fresh ()) 2061).2.1.2 (by decide)),
    (C18_keyboard_io unitPeripherals sampleGROM (TI994.fresh ()) 2050).2.2.2.2.1
      ((C18_keyboard_io unitPeripherals sampleGROM (TI994.fresh ()) 2050).2.2.2.1.2
        (by decide)),
    (C18_keyboard_io unitPeripherals sampleGROM (TI994.fresh ()) 2062).2.2.2.2.2
      (by decide) (by decide)⟩

/-! ## C12, C15: teardown -/

theorem deleteObject_frame {σ : Type} (P : Peripherals σ) (p : Option Nat) (s : TI994 σ) :
    (deleteObject P p s).freed = p.toList ++ s.freed ∧
    (deleteObject P p s).objects = s.objects ∧
    (deleteObject P p s).memorySize = s.memorySize ∧
    (deleteObject P p s).ioSize = s.ioSize ∧
    (deleteObject P p s).memorySpaceRead = s.memorySpaceRead ∧
    (deleteObject P p s).memorySpaceWrite = s.memorySpaceWrite ∧
    (deleteObject P p s).ioSpaceRead = s.ioSpaceRead ∧
    (deleteObject P p s).ioSpaceWrite = s.ioSpaceWrite ∧
    (deleteObject P p s).theTV = s.theTV ∧ (deleteObject P p s).pGrom = s.pGrom ∧
    (deleteObject P p s).pRom = s.pRom ∧ (deleteObject P p s).pScratch = s.pScratch ∧
    (deleteObject P p s).pVDP = s.pVDP ∧ (deleteObject P p s).pKey = s.pKey ∧
    (deleteObject P p s).pCPU = s.pCPU := by
  cases p with
  | none => exact ⟨rfl, rfl, rfl, rfl, rfl, rfl, rfl, rfl, rfl, rfl, rfl, rfl, rfl, rfl, rfl⟩
  | some h => exact ⟨rfl, rfl, rfl, rfl, rfl, rfl, rfl, rfl, rfl, rfl, rfl, rfl, rfl, rfl, rfl⟩

theorem deInitSystem_unfold {σ : Type} (P : Peripherals σ) (s : TI994 σ) :
    (TI994.deInitSystem P s).2 =
      deleteObject P s.pCPU (deleteObject P s.pGrom (deleteObject P s.pRom
        (deleteObject P s.pVDP
          { s with ioSize := 0, memorySize := 0, memorySpaceRead := none,
                   memorySpaceWrite := none, ioSpaceRead := none,
                   ioSpaceWrite := none }))) := by
  cases hV : s.pVDP <;> cases hR : s.pRom <;> cases hG : s.pGrom <;> cases hC : s.pCPU <;>
    simp [TI994.deInitSystem, deleteObject, hV, hR, hG, hC]

/-- What `deInitSystem` does to any machine: sizes zero, the four table pointers
null, the device pointers and the object log kept, and exactly the handles
of `pVDP`, `pRom`, `pGrom` and `pCPU` added to the freed handles. -/
theorem deInitSystem_spec {σ : Type} (P : Peripherals σ) (s : TI994 σ) :
    (TI994.deInitSystem P s).1 = true ∧
    (TI994.deInitSystem P s).2.memorySize = 0 ∧
    (TI994.deInitSystem P s).2.ioSize = 0 ∧
    (TI994.deInitSystem P s).2.memorySpaceRead = none ∧
    (TI994.deInitSystem P s).2.memorySpaceWrite = none ∧
    (TI994.deInitSystem P s).2.ioSpaceRead = none ∧
    (TI994.deInitSystem P s).2.ioSpaceWrite = none ∧
    (TI994.deInitSystem P s).2.objects = s.objects ∧
    (TI994.deInitSystem P s).2.freed =
      s.pCPU.toList ++ (s.pGrom.toList ++ (s.pRom.toList ++ (s.pVDP.toList ++ s.freed))) ∧
    (TI994.deInitSystem P s).2.theTV = s.theTV ∧
    (TI994.deInitSystem P s).2.pGrom = s.pGrom ∧
    (TI994.deInitSystem P s).2.pRom = s.pRom ∧
    (TI994.deInitSystem P s).2.pScratch = s.pScratch ∧
    (TI994.deInitSystem P s).2.pVDP = s.pVDP ∧
    (TI994.deInitSystem P s).2.pKey = s.pKey ∧
    (TI994.deInitSystem P s).2.pCPU = s.pCPU := by
  rw [deInitSystem_unfold]
  obtain ⟨a1, a2, a3, a4, a5, a6, a7, a8, a9, a10, a11, a12, a13, a14, a15⟩ :=
    deleteObject_frame P s.pVDP
      { s with ioSize := 0, memorySize := 0, memorySpaceRead := none,
               memorySpaceWrite := none, ioSpaceRead := none, ioSpaceWrite := none }
  obtain ⟨b1, b2, b3, b4, b5, b6, b7, b8, b9, b10, b11, b12, b13, b14, b15⟩ :=
    deleteObject_frame P s.pRom (deleteObject P s.pVDP
      { s with ioSize := 0, memorySize := 0, memorySpaceRead := none,
               memorySpaceWrite := none, ioSpaceRead := none, ioSpaceWrite := none })
  obtain ⟨c1, c2, c3, c4, c5, c6, c7, c8, c9, c10, c11, c12, c13, c14, c15⟩ :=
    deleteObject_frame P s.pGrom (deleteObject P s.pRom (deleteObject P s.pVDP
      { s with ioSize := 0, memorySize := 0, memorySpaceRead := none,
               memorySpaceWrite := none, ioSpaceRead := none, ioSpaceWrite := none }))
  obtain ⟨d1, d2, d3, d4, d5, d6, d7, d8, d9, d10, d11, d12, d13, d14, d15⟩ :=
    deleteObject_frame P s.pCPU (deleteObject P s.pGrom (deleteObject P s.pRom
      (deleteObject P s.pVDP
        { s with ioSize := 0, memorySize := 0, memorySpaceRead := none,
                 memorySpaceWrite := none, ioSpaceRead := none, ioSpaceWrite := none })))
  refine ⟨rfl, d3.trans (c3.trans (b3.trans a3)), d4.trans (c4.trans (b4.trans a4)),
    d5.trans (c5.trans (b5.trans a5)), d6.trans (c6.trans (b6.trans a6)),
    d7.trans (c7.trans (b7.trans a7)), d8.trans (c8.trans (b8.trans a8)),
    d2.trans (c2.trans (b2.trans a2)), ?_,
    d9.trans (c9.trans (b9.trans a9)), d10.trans (c10.trans (b10.trans a10)),
    d11.trans (c11.trans (b11.trans a11)), d12.trans (c12.trans (b12.trans a12)),
    d13.trans (c13.trans (b13.trans a13)), d14.trans (c14.trans (b14.trans a14)),
    d15.trans (c15.trans (b15.trans a15))⟩
  rw [d1, c1, b1, a1]

/-- C12: after `TI994::deInitSystem`, on an initialised machine as on any other,
`memorySize` and `ioSize` are 0 and the four table pointers are null, so no
address of any space resolves to an entry. -/
theorem C12_deinit_no_dispatch {σ : Type} (P : Peripherals σ) (g : Classic99GROM)
    (s : TI994 σ) (a : Nat) :
    (TI994.deInitSystem P (TI994.initSystem P g s).2).1 = true ∧
    (TI994.deInitSystem P (TI994.initSystem P g s).2).2.memorySize = 0 ∧
    (TI994.deInitSystem P (TI994.initSystem P g s).2).2.ioSize = 0 ∧
    (TI994.deInitSystem P (TI994.initSystem P g s).2).2.memorySpaceRead = none ∧
    (TI994.deInitSystem P (TI994.initSystem P g s).2).2.memorySpaceWrite = none ∧
    (TI994.deInitSystem P (TI994.initSystem P g s).2).2.ioSpaceRead = none ∧
    (TI994.deInitSystem P (TI994.initSystem P g s).2).2.ioSpaceWrite = none ∧
    resolve (TI994.deInitSystem P (TI994.initSystem P g s).2).2.memorySpaceRead a = none ∧
    resolve (TI994.deInitSystem P (TI994.initSystem P g s).2).2.memorySpaceWrite a = none ∧
    resolve (TI994.deInitSystem P (TI994.initSystem P g s).2).2.ioSpaceRead a = none ∧
    resolve (TI994.deInitSystem P (TI994.initSystem P g s).2).2.ioSpaceWrite a = none ∧
    (TI994.deInitSystem P s).2.memorySize = 0 ∧ (TI994.deInitSystem P s).2.ioSize = 0 ∧
    resolve (TI994.deInitSystem P s).2.memorySpaceRead a = none ∧
    resolve (TI994.deInitSystem P s).2.memorySpaceWrite a = none ∧
    resolve (TI994.deInitSystem P s).2.ioSpaceRead a = none ∧
    resolve (TI994.deInitSystem P s).2.ioSpaceWrite a = none := by
  obtain ⟨h0, h1, h2, h3, h4, h5, h6, _⟩ := deInitSystem_spec P (TI994.initSystem P g s).2
  obtain ⟨_, k1, k2, k3, k4, k5, k6, _⟩ := deInitSystem_spec P s
  refine ⟨h0, h1, h2, h3, h4, h5, h6, ?_, ?_, ?_, ?_, k1, k2, ?_, ?_, ?_, ?_⟩
  · rw [h3]; rfl
  · rw [h4]; rfl
  · rw [h5]; rfl
  · rw [h6]; rfl
  · rw [k3]; rfl
  · rw [k4]; rfl
  · rw [k5]; rfl
  · rw [k6]; rfl

theorem live_some {σ : Type} (s : TI994 σ) (h : Nat) :
    live s (some h) = (decide (h < s.objects.length) && !(s.freed.contains h)) := rfl

/-- C15 (what the code does): after `initSystem` and `deInitSystem` on a fresh
machine, the objects of `pVDP`, `pRom`, `pGrom` and `pCPU` have been deleted,
but the TV, the scratchpad and the keyboard that `initSystem` constructed
are still live: `deInitSystem` never deletes them. -/
theorem C15_leaked_devices :
    live (TI994.deInitSystem unitPeripherals sampleMachine).2
      (TI994.deInitSystem unitPeripherals sampleMachine).2.pVDP = false ∧
    live (TI994.deInitSystem unitPeripherals sampleMachine).2
      (TI994.deInitSystem unitPeripherals sampleMachine).2.pRom = false ∧
    live (TI994.deInitSystem unitPeripherals sampleMachine).2
      (TI994.deInitSystem unitPeripherals sampleMachine).2.pGrom = false ∧
    live (TI994.deInitSystem unitPeripherals sampleMachine).2
      (TI994.deInitSystem unitPeripherals sampleMachine).2.pCPU = false ∧
    live (TI994.deInitSystem unitPeripherals sampleMachine).2
      (TI994.deInitSystem unitPeripherals sampleMachine).2.theTV = true ∧
    live (TI994.deInitSystem unitPeripherals sampleMachine).2
      (TI994.deInitSystem unitPeripherals sampleMachine).2.pScratch = true ∧
    live (TI994.deInitSystem unitPeripherals sampleMachine).2
      (TI994.deInitSystem unitPeripherals sampleMachine).2.pKey = true := by
  obtain ⟨_, iT, iG, iR, iS, iV, iK, iC, iO, iF, _⟩ :=
    initSystem_spec unitPeripherals sampleGROM (TI994.fresh ())
  have iT2 : sampleMachine.theTV = some 0 := iT
  have iG2 : sampleMachine.pGrom = some 1 := iG
  have iR2 : sampleMachine.pRom = some 2 := iR
  have iS2 : sampleMachine.pScratch = some 3 := iS
  have iV2 : sampleMachine.pVDP = some 4 := iV
  have iK2 : sampleMachine.pKey = some 5 := iK
  have iC2 : sampleMachine.pCPU = some 6 := iC
  have iO2 : sampleMachine.objects = [.Classic99TV, .TI994GROM, .TI994ROM, .TI994Scratchpad,
      .TMS9918, .KB994, .TMS9900] := iO
  have iF2 : sampleMachine.freed = [] := iF
  obtain ⟨_, _, _, _, _, _, _, dO, dF, dT, dG, dR, dS, dV, dK, dC⟩ :=
    deInitSystem_spec unitPeripherals sampleMachine
  rw [iC2, iG2, iR2, iV2, iF2] at dF
  rw [dT, dG, dR, dS, dV, dK, dC, iT2, iG2, iR2, iS2, iV2, iK2, iC2]
  simp only [live_some, dO, dF, iO2]
  decide

/-! ## C13: initSystem on an Active machine -/

/-- With null table pointers lines 22-25 return, whatever a delete of an array
does. -/
theorem deleteTables_of_null {σ : Type} (d : Option Unit) (s : TI994 σ)
    (h1 : s.memorySpaceRead = none) (h2 : s.memorySpaceWrite = none)
    (h3 : s.ioSpaceRead = none) (h4 : s.ioSpaceWrite = none) :
    TI994.deleteTables d s = some s := by
  unfold TI994.deleteTables
  rw [h1, h2, h3, h4]
  rfl

/-- C14: one `runSystem` call on an initialised machine returns `true` with the
timestamp advanced by the quantum; the peripherals' state it leaves is that
of the CPU operating at the advanced timestamp and then the VDP operating
at the same advanced timestamp, and nothing else (no other device is
invoked); the interrupt signal is polled on that final state, the line
being asserted when it is true and kept otherwise; tables, device pointers
and object logs are left as they were. -/
theorem C14_tick_order {σ : Type} (P : Peripherals σ) (s : TI994 σ) (q : Int)
    (cpu vdp : Nat) (hs : initialised s) (hc : s.pCPU = some cpu) (hv : s.pVDP = some vdp) :
    ∃ s1, TI994.runSystem P q s = some (true, s1) ∧
      s1.currentTimestamp = s.currentTimestamp + q ∧
      s1.world = P.operate vdp (s.currentTimestamp + q)
        (P.operate cpu (s.currentTimestamp + q) s.world) ∧
      s1.interruptLine = (s.interruptLine || P.isIntActive vdp s1.world) ∧
      s1.memorySpaceRead = s.memorySpaceRead ∧ s1.memorySpaceWrite = s.memorySpaceWrite ∧
      s1.ioSpaceRead = s.ioSpaceRead ∧ s1.ioSpaceWrite = s.ioSpaceWrite ∧
      s1.pCPU = s.pCPU ∧ s1.pVDP = s.pVDP ∧ s1.pRom = s.pRom ∧ s1.pGrom = s.pGrom ∧
      s1.pScratch = s.pScratch ∧ s1.pKey = s.pKey ∧ s1.theTV = s.theTV ∧
      s1.objects = s.objects ∧ s1.freed = s.freed := by
  have hlc : live s (some cpu) = true := by rw [← hc]; exact hs.1
  have hlv : live s (some vdp) = true := by rw [← hv]; exact hs.2
  refine ⟨_, runSystem_eq P q s cpu vdp hc hv hlc hlv, ?_⟩
  by_cases hp : P.isIntActive vdp (P.operate vdp (s.currentTimestamp + q)
      (P.operate cpu (s.currentTimestamp + q) s.world)) = true
  · rw [if_pos hp]
    refine ⟨rfl, rfl, ?_, rfl, rfl, rfl, rfl, rfl, rfl, rfl, rfl, rfl, rfl, rfl, rfl, rfl⟩
    show true = (s.interruptLine || P.isIntActive vdp (P.operate vdp (s.currentTimestamp + q)
      (P.operate cpu (s.currentTimestamp + q) s.world)))
    rw [hp]; simp
  · rw [if_neg hp]
    refine ⟨rfl, rfl, ?_, rfl, rfl, rfl, rfl, rfl, rfl, rfl, rfl, rfl, rfl, rfl, rfl, rfl⟩
    show s.interruptLine = (s.interruptLine || P.isIntActive vdp
      (P.operate vdp (s.currentTimestamp + q)
        (P.operate cpu (s.currentTimestamp + q) s.world)))
    rw [Bool.not_eq_true] at hp
    rw [hp]; simp

/-- Instance of C14 on the machine with the logging peripherals: a tick of 5
appends to the log first the CPU (handle 6) and then the VDP (handle 4), both
at the advanced timestamp. -/
theorem C14_tick_order_witness :
    initialised traceMachine ∧ traceMachine.pCPU = some 6 ∧ traceMachine.pVDP = some 4 ∧
    ∃ s1, TI994.runSystem tracePeripherals 5 traceMachine = some (true, s1) ∧
      s1.currentTimestamp = traceMachine.currentTimestamp + 5 ∧
      s1.world = traceMachine.world ++ [(6, traceMachine.currentTimestamp + 5)]
        ++ [(4, traceMachine.currentTimestamp + 5)] := by
  have hi : initialised traceMachine :=
    initSystem_initialised tracePeripherals sampleGROM (TI994.fresh []) (by simp [TI994.fresh])
  have hC : traceMachine.pCPU = some 6 :=
    (initSystem_spec tracePeripherals sampleGROM (TI994.fresh [])).2.2.2.2.2.2.2.1
  have hV : traceMachine.pVDP = some 4 :=
    (initSystem_spec tracePeripherals sampleGROM (TI994.fresh [])).2.2.2.2.2.1
  obtain ⟨s1, h1, h2, h3, _⟩ := C14_tick_order tracePeripherals traceMachine 5 6 4 hi hC hV
  exact ⟨hi, hC, hV, s1, h1, h2, h3⟩

/-! ## C19: the frame of the variant hook -/

/-- C19: `initSpecificSystem`, run on the machine `initSystem` has built, leaves
the Main-Read, Main-Write and IO-Read tables as they were; for every
`n ≤ 102` it binds IO-Write address `20n+21` to the variant keyboard (the
`KB994A` it has just constructed, now `pKey`) with local key 21, the key the
base `initSystem` had assigned to that address; and every IO-Write address
not of that form resolves as before. -/
theorem C19_hook_frame {σ : Type} (P : Peripherals σ) (g : Classic99GROM) (s : TI994 σ) :
    (TI994A22.initSpecificSystem P (TI994.initSystem P g s).2).2.memorySpaceRead
      = (TI994.initSystem P g s).2.memorySpaceRead ∧
    (TI994A22.initSpecificSystem P (TI994.initSystem P g s).2).2.memorySpaceWrite
      = (TI994.initSystem P g s).2.memorySpaceWrite ∧
    (TI994A22.initSpecificSystem P (TI994.initSystem P g s).2).2.ioSpaceRead
      = (TI994.initSystem P g s).2.ioSpaceRead ∧
    (TI994A22.initSpecificSystem P (TI994.initSystem P g s).2).2.pKey ≠ none ∧
    (TI994A22.initSpecificSystem P (TI994.initSystem P g s).2).2.pKey
      ≠ (TI994.initSystem P g s).2.pKey ∧
    classOf (TI994A22.initSpecificSystem P (TI994.initSystem P g s).2).2
      (TI994A22.initSpecificSystem P (TI994.initSystem P g s).2).2.pKey = some .KB994A ∧
    (∀ n : Nat, n ≤ 102 →
      resolve (TI994A22.initSpecificSystem P (TI994.initSystem P g s).2).2.ioSpaceWrite
          (20 * n + 21)
        = some ⟨(TI994A22.initSpecificSystem P (TI994.initSystem P g s).2).2.pKey, 21⟩ ∧
      keyAt (TI994.initSystem P g s).2.ioSpaceWrite (20 * n + 21) = some 21) ∧
    (∀ a : Nat, (¬ ∃ n : Nat, n ≤ 102 ∧ a = 20 * n + 21) →
      resolve (TI994A22.initSpecificSystem P (TI994.initSystem P g s).2).2.ioSpaceWrite a
        = resolve (TI994.initSystem P g s).2.ioSpaceWrite a) := by
  obtain ⟨_, _, _, _, _, _, iK, _, iO, _, _, _, ht⟩ := initSystem_spec P g s
  obtain ⟨_, _, _, _, vK, vO, v1, v2, v3, v4⟩ :=
    initSpecificSystem_spec P (TI994.initSystem P g s).2
  have hlen : (TI994.initSystem P g s).2.objects.length = s.objects.length + 7 := by
    rw [iO]; simp
  rw [ht.ioSize, hlen] at v4
  rw [hlen] at vK
  rw [vK, iK]
  refine ⟨v1, v2, v3, by simp, by simp, ?_, ?_, ?_⟩
  · have e : s.objects.length + 7 + 3 - s.objects.length = 10 := by omega
    rw [classOf, Option.some_bind, vO, iO, List.append_assoc,
      List.getElem?_append_right (by omega), e]
    rfl
  · intro n hn
    have hw : resolve (TI994.initSystem P g s).2.ioSpaceWrite (20 * n + 21)
        = some ⟨some (s.objects.length + 5), 21⟩ := by
      have hk : 18 + (20 * n + 21 - 18) % 20 = 21 := by omega
      rw [ht.ioWrite, if_pos (by omega), ioWriteMap, if_pos (by omega), hk]
    constructor
    · rw [v4, if_pos (by omega), hw]; rfl
    · rw [keyAt, hw]; rfl
  · intro a ha
    rw [v4, if_neg]
    rintro ⟨h1, h2, h3, _⟩
    exact ha ⟨(a - 21) / 20, by omega, by omega⟩

/-- Instance of C19 on the sample machine: after the hook, IO-Write 2061 is the
variant keyboard with key 21, and IO-Write 18 resolves as before. -/
theorem C19_hook_frame_witness :
    resolve (TI994A22.initSpecificSystem unitPeripherals sampleMachine).2.ioSpaceWrite
        (20 * 102 + 21)
      = some ⟨(TI994A22.initSpecificSystem unitPeripherals sampleMachine).2.pKey, 21⟩ ∧
    resolve (TI994A22.initSpecificSystem unitPeripherals sampleMachine).2.ioSpaceWrite 18
      = resolve sampleMachine.ioSpaceWrite 18 :=
  ⟨((C19_hook_frame unitPeripherals sampleGROM (TI994.fresh ())).2.2.2.2.2.2.1 102
      (by decide)).1,
    (C19_hook_frame unitPeripherals sampleGROM (TI994.fresh ())).2.2.2.2.2.2.2 18
      (by rintro ⟨n, _, hn⟩; omega)⟩

/-! ## The claims of the loops as a sequence -/

theorem rest_applyClaim {σ : Type} (c : Claim) (s : TI994 σ) :
    rest (applyClaim c s) = rest s := by
  unfold applyClaim
  split
  · exact rest_claimRead _ _ _ _
  · exact rest_claimWrite _ _ _ _
  · exact rest_claimIORead _ _ _ _
  · exact rest_claimIOWrite _ _ _ _

theorem applyClaims_nil {σ : Type} (s : TI994 σ) : applyClaims [] s = s := rfl

theorem applyClaims_cons {σ : Type} (c : Claim) (L : List Claim) (s : TI994 σ) :
    applyClaims (c :: L) s = applyClaims L (applyClaim c s) := rfl

theorem rest_applyClaims {σ : Type} (L : List Claim) :
    ∀ s : TI994 σ, rest (applyClaims L s) = rest s := by
  induction L with
  | nil => intro s; rfl
  | cons c L ih =>
    intro s
    rw [applyClaims_cons, ih, rest_applyClaim]

theorem spaceSize_applyClaims {σ : Type} (L : List Claim) (s : TI994 σ) (sp : Space) :
    spaceSize sp (applyClaims L s) = spaceSize sp s := by
  obtain ⟨_, _, _, _, _, _, hm, hio, _, _⟩ := rest_fields (rest_applyClaims L s)
  cases sp
  · exact hm
  · exact hm
  · exact hio
  · exact hio

end Classic99
